import Mathlib

/-!
Verification of the ObjectBox Go generator's model-reconciliation engine.

The merge functions (`mergeBindingWithModelInfo`, `getModelEntity`,
`mergeModelEntity`, `getModelProperty`, `mergeModelProperty`,
`getModelRelation`, `mergeModelRelation`, `bindingPropertyExists`,
`bindingRelationExists`) are translated from the generator's merge source
file.  The `modelinfo` helper operations (entity/property/relation lookup,
creation, removal, UID generation) are not part of the provided sources;
they are modelled from the specification's description of the Model
Document, the UID Pool and the Identity Pair rules.
-/

namespace ObxGen

/-- An identity pair `{id, uid}`: local numeric id and global uid.
Modelled structurally (the Go source serializes it as the string
`"id:uid"`). -/
structure IdUid where
  id : Nat
  uid : Nat
deriving Repr, DecidableEq, Inhabited

/-- Model-side property record (persisted model document).  The Go
`relationTarget` is a string where `""` means absent. -/
structure Property where
  Id : IdUid
  Name : String
  IndexId : Option IdUid
  RelationTarget : String
  Typ : Nat
  Flags : Nat
deriving Repr, DecidableEq, Inhabited

/-- Model-side standalone relation record. -/
structure StandaloneRelation where
  Id : IdUid
  Name : String
  TargetId : IdUid
deriving Repr, DecidableEq, Inhabited

/-- Model-side entity record. -/
structure Entity where
  Id : IdUid
  Name : String
  LastPropertyId : IdUid
  Properties : List Property
  Relations : List StandaloneRelation
deriving Repr, DecidableEq, Inhabited

/-- The persisted model document (root record). -/
structure ModelInfo where
  Entities : List Entity
  LastEntityId : IdUid
  LastIndexId : IdUid
  LastRelationId : IdUid
  RetiredEntityUids : List Nat
  RetiredIndexUids : List Nat
  RetiredPropertyUids : List Nat
  RetiredRelationUids : List Nat
  ModelVersion : Nat
  MinimumParserVersion : Nat
  Note1 : String
  Package : String
deriving Repr, DecidableEq, Inhabited

/-- Binding-side index request: its presence on a binding property means
the property requests an index; `id`/`uid` are written back by the merge. -/
structure BindingIndex where
  Id : Nat
  Uid : Nat
deriving Repr, DecidableEq, Inhabited

/-- Binding-side reference to a relation's target entity. -/
structure BindingTarget where
  Name : String
  Id : Nat
  Uid : Nat
deriving Repr, DecidableEq, Inhabited

/-- Binding-side property descriptor.  `Relation` holds the target entity
name of a property-level relation, if any.  `Flags` stands for the Go
side's combined flag bitset and `entityName` for the owning binding
entity's name (used in error values). -/
structure BindingProperty where
  Name : String
  Uid : Nat
  uidRequest : Bool
  Id : Nat
  Index : Option BindingIndex
  Relation : Option String
  ObType : Nat
  Flags : Nat
  entityName : String
deriving Repr, DecidableEq, Inhabited

/-- Binding-side standalone relation descriptor. -/
structure BindingRelation where
  Name : String
  Uid : Nat
  uidRequest : Bool
  Id : Nat
  Target : BindingTarget
deriving Repr, DecidableEq, Inhabited

/-- Binding-side entity descriptor. -/
structure BindingEntity where
  Name : String
  Uid : Nat
  uidRequest : Bool
  Id : Nat
  LastPropertyId : IdUid
  Properties : List BindingProperty
  Relations : List BindingRelation
deriving Repr, DecidableEq, Inhabited

/-- The whole binding description produced by the annotation parser. -/
structure Binding where
  Entities : List BindingEntity
  Pkg : String
deriving Repr, DecidableEq, Inhabited

/-- Structured error values of the reconciliation run (the spec asks for
tagged outcomes rather than plain strings). -/
inductive Err where
  | entityUidNotFound (uid : Nat)
  | entityNameNotFound (name : String)
  | entityUidRequestExists (name : String) (existingUid : Nat)
  | entityUidRequestNotFound (name : String)
  | propertyUidAndNameNotFound (uid : Nat) (name : String)
  | propertyUidRequestExists (name entityName : String) (existingUid newUid : Nat)
  | propertyUidRequestNotFound (name entityName : String)
  | relationUidNotFound (uid : Nat)
  | relationUidRequestExists (name entityName : String) (existingUid : Nat)
  | relationUidRequestNotFound (name entityName : String)
deriving Repr, DecidableEq, Inhabited

/-- All uids recorded in one entity: its own, its property-counter uid,
its properties', their indexes', and its relations'. -/
def entityUids (e : Entity) : List Nat :=
  e.Id.uid :: e.LastPropertyId.uid ::
    (e.Properties.map (fun p => p.Id.uid) ++
     e.Properties.filterMap (fun p => p.IndexId.map (fun iu => iu.uid)) ++
     e.Relations.map (fun r => r.Id.uid))

/-- Modelled from the spec: the UID Pool's full known-UID set — every uid
active anywhere in the document plus all four retired lists and the
document-level counters. -/
def allUids (m : ModelInfo) : List Nat :=
  m.LastEntityId.uid :: m.LastIndexId.uid :: m.LastRelationId.uid ::
    ((m.Entities.map entityUids).flatten ++
     m.RetiredEntityUids ++ m.RetiredIndexUids ++
     m.RetiredPropertyUids ++ m.RetiredRelationUids)

/-- Modelled from the spec: `GenerateUid` draws a fresh nonzero uid
distinct from every known uid (the Go source draws randomly and retries on
collision; the deterministic fresh choice used here satisfies the same
contract: nonzero and collision-free). -/
def generateUid (m : ModelInfo) : Nat :=
  (allUids m).foldr max 0 + 1

/-- Entity at index `i` of the document (or a default entity when out of
range; the merge only uses indices produced by resolution). -/
def getEntityD (m : ModelInfo) (i : Nat) : Entity :=
  m.Entities.getD i default

/-- Replace the entity at index `i`. -/
def setEntity (m : ModelInfo) (i : Nat) (e : Entity) : ModelInfo :=
  { m with Entities := m.Entities.set i e }

/-- Update the entity at index `i` in place. -/
def updEntity (m : ModelInfo) (i : Nat) (f : Entity → Entity) : ModelInfo :=
  setEntity m i (f (getEntityD m i))

/-- Property `j` of entity `i`. -/
def getPropD (m : ModelInfo) (i j : Nat) : Property :=
  (getEntityD m i).Properties.getD j default

/-- Write back property `j` of entity `i`. -/
def setProp (m : ModelInfo) (i j : Nat) (p : Property) : ModelInfo :=
  updEntity m i (fun e => { e with Properties := e.Properties.set j p })

/-- Relation `j` of entity `i`. -/
def getRelD (m : ModelInfo) (i j : Nat) : StandaloneRelation :=
  (getEntityD m i).Relations.getD j default

/-- Write back relation `j` of entity `i`. -/
def setRel (m : ModelInfo) (i j : Nat) (r : StandaloneRelation) : ModelInfo :=
  updEntity m i (fun e => { e with Relations := e.Relations.set j r })

/-- Index of the first list element satisfying `p`. -/
def findIndexOpt (p : α → Bool) : List α → Option Nat
  | [] => none
  | a :: as => if p a then some 0 else (findIndexOpt p as).map (fun k => k + 1)

/-- Modelled from the spec: `FindEntityByUid` — index of the first entity
whose identity pair carries the given uid. -/
def findEntityIdxByUid (m : ModelInfo) (uid : Nat) : Option Nat :=
  findIndexOpt (fun e => e.Id.uid = uid) m.Entities

/-- Modelled from the spec: `FindEntityByName` — index of the first entity
with the given name. -/
def findEntityIdxByName (m : ModelInfo) (name : String) : Option Nat :=
  findIndexOpt (fun e => e.Name = name) m.Entities

/-- Modelled from the spec: `FindPropertyByUid`, scoped to one entity. -/
def findPropIdxByUid (e : Entity) (uid : Nat) : Option Nat :=
  findIndexOpt (fun p => p.Id.uid = uid) e.Properties

/-- Modelled from the spec: `FindPropertyByName`, scoped to one entity. -/
def findPropIdxByName (e : Entity) (name : String) : Option Nat :=
  findIndexOpt (fun p => p.Name = name) e.Properties

/-- Modelled from the spec: `FindRelationByUid`, scoped to one entity. -/
def findRelIdxByUid (e : Entity) (uid : Nat) : Option Nat :=
  findIndexOpt (fun r => r.Id.uid = uid) e.Relations

/-- Modelled from the spec: `FindRelationByName`, scoped to one entity. -/
def findRelIdxByName (e : Entity) (name : String) : Option Nat :=
  findIndexOpt (fun r => r.Name = name) e.Relations

/-- Modelled from the spec: `CreateEntity` — new entity with local id one
past `lastEntityId.id` and a freshly generated uid, appended to the
document; returns its index. -/
def createEntity (name : String) (m : ModelInfo) : Nat × ModelInfo :=
  let eid := m.LastEntityId.id + 1
  let euid := generateUid m
  let e : Entity := { Id := ⟨eid, euid⟩, Name := name, LastPropertyId := ⟨0, 0⟩
                      Properties := [], Relations := [] }
  (m.Entities.length,
   { m with Entities := m.Entities ++ [e], LastEntityId := ⟨eid, euid⟩ })

/-- Modelled from the spec: `CreateProperty` on entity `i` — fresh pair
drawn from the entity's own `lastPropertyId` counter, which is updated by
an explicit max comparison (it only ever increases); returns the new
property's index within the entity. -/
def createProperty (i : Nat) (m : ModelInfo) : Nat × ModelInfo :=
  let e := getEntityD m i
  let pid := e.LastPropertyId.id + 1
  let puid := generateUid m
  let p : Property := { Id := ⟨pid, puid⟩, Name := "", IndexId := none
                        RelationTarget := "", Typ := 0, Flags := 0 }
  let newLast : IdUid := if e.LastPropertyId.id < pid then ⟨pid, puid⟩ else e.LastPropertyId
  (e.Properties.length,
   updEntity m i (fun e => { e with Properties := e.Properties ++ [p], LastPropertyId := newLast }))

/-- Modelled from the spec: `CreateRelation` on entity `i` — fresh pair
drawn from the document's `lastRelationId` counter; returns the new
relation's index within the entity. -/
def createRelation (i : Nat) (m : ModelInfo) : Nat × ModelInfo :=
  let e := getEntityD m i
  let rid := m.LastRelationId.id + 1
  let ruid := generateUid m
  let r : StandaloneRelation := { Id := ⟨rid, ruid⟩, Name := "", TargetId := ⟨0, 0⟩ }
  (e.Relations.length,
   { updEntity m i (fun e => { e with Relations := e.Relations ++ [r] }) with
       LastRelationId := ⟨rid, ruid⟩ })

/-- `bindingPropertyExists` from the merge source: does some binding
property of the entity carry the model property's name? -/
def bindingPropertyExists (p : Property) (be : BindingEntity) : Bool :=
  be.Properties.any (fun bp => bp.Name = p.Name)

/-- `bindingRelationExists` from the merge source. -/
def bindingRelationExists (r : StandaloneRelation) (be : BindingEntity) : Bool :=
  be.Relations.any (fun br => br.Name = r.Name)

/-- Modelled from the spec: removing a model property with no same-named
binding property deletes its slot from the entity's property list and
retires its uid into `retiredPropertyUids`.  This is the merge's removal
phase over entity `i` (the source collects the properties failing
`bindingPropertyExists` and removes each). -/
def removeMissingProperties (be : BindingEntity) (i : Nat) (m : ModelInfo) : ModelInfo :=
  let e := getEntityD m i
  let removed := e.Properties.filter (fun p => ¬ bindingPropertyExists p be)
  let m1 := updEntity m i (fun e =>
    { e with Properties := e.Properties.filter (fun p => bindingPropertyExists p be) })
  { m1 with RetiredPropertyUids := m1.RetiredPropertyUids ++ removed.map (fun p => p.Id.uid) }

/-- Modelled from the spec: relations with no matching binding entry are
removed and their uid retired into `retiredRelationUids`. -/
def removeMissingRelations (be : BindingEntity) (i : Nat) (m : ModelInfo) : ModelInfo :=
  let e := getEntityD m i
  let removed := e.Relations.filter (fun r => ¬ bindingRelationExists r be)
  let m1 := updEntity m i (fun e =>
    { e with Relations := e.Relations.filter (fun r => bindingRelationExists r be) })
  { m1 with RetiredRelationUids := m1.RetiredRelationUids ++ removed.map (fun r => r.Id.uid) }

/-- `getModelEntity` from the merge source: resolve a binding entity to a
document entity index — by explicit uid, else by name, honoring the
uid-request protocol, else create. -/
def getModelEntity (be : BindingEntity) (m : ModelInfo) : Except Err (Nat × ModelInfo) :=
  if be.Uid ≠ 0 then
    match findEntityIdxByUid m be.Uid with
    | some i => .ok (i, m)
    | none => .error (.entityUidNotFound be.Uid)
  else
    match findEntityIdxByName m be.Name with
    | some i =>
        if be.uidRequest then
          .error (.entityUidRequestExists be.Name (getEntityD m i).Id.uid)
        else
          .ok (i, m)
    | none =>
        if be.uidRequest then
          .error (.entityUidRequestNotFound be.Name)
        else
          .ok (createEntity be.Name m)

/-- `getModelProperty` from the merge source: resolve a binding property
to a property index within entity `i` — by explicit uid with a fall back
to matching by name (the reset-property-data use-case), else by name,
honoring the uid-request protocol, else create. -/
def getModelProperty (bp : BindingProperty) (i : Nat) (m : ModelInfo) :
    Except Err (Nat × ModelInfo) :=
  if bp.Uid ≠ 0 then
    match findPropIdxByUid (getEntityD m i) bp.Uid with
    | some j => .ok (j, m)
    | none =>
        match findPropIdxByName (getEntityD m i) bp.Name with
        | some j => .ok (j, m)
        | none => .error (.propertyUidAndNameNotFound bp.Uid bp.Name)
  else
    match findPropIdxByName (getEntityD m i) bp.Name with
    | some j =>
        if bp.uidRequest then
          .error (.propertyUidRequestExists bp.Name bp.entityName
            ((getEntityD m i).Properties.getD j default).Id.uid (generateUid m))
        else
          .ok (j, m)
    | none =>
        if bp.uidRequest then
          .error (.propertyUidRequestNotFound bp.Name bp.entityName)
        else
          .ok (createProperty i m)

/-- `mergeModelProperty` from the merge source: copy the binding name onto
the model property, rewrite its uid when the binding carries an explicit
one, write the resolved pair back into the binding, reconcile index
presence, and copy relation target, type and flags from the binding. -/
def mergeModelProperty (bp : BindingProperty) (i j : Nat) (m : ModelInfo) :
    Except Err (BindingProperty × ModelInfo) :=
  let p := getPropD m i j
  let p1 := { p with Name := bp.Name }
  let p2 := if bp.Uid ≠ 0 then { p1 with Id := ⟨p1.Id.id, bp.Uid⟩ } else p1
  let bp1 := { bp with Id := p2.Id.id, Uid := p2.Id.uid }
  let step :=
    match bp.Index with
    | none =>
        match p2.IndexId with
        | some iu =>
            (bp1, { p2 with IndexId := none },
             { m with RetiredIndexUids := m.RetiredIndexUids ++ [iu.uid] })
        | none => (bp1, p2, m)
    | some _ =>
        match p2.IndexId with
        | none =>
            let iid := m.LastIndexId.id + 1
            let iuid := generateUid m
            ({ bp1 with Index := some ⟨iid, iuid⟩ },
             { p2 with IndexId := some ⟨iid, iuid⟩ },
             { m with LastIndexId := ⟨iid, iuid⟩ })
        | some iu => ({ bp1 with Index := some ⟨iu.id, iu.uid⟩ }, p2, m)
  let bp2 := step.1
  let p3 := step.2.1
  let m1 := step.2.2
  let p4 := { p3 with RelationTarget := bp.Relation.getD ""
                      Typ := bp.ObType, Flags := bp.Flags }
  .ok (bp2, setProp m1 i j p4)

/-- `getModelRelation` from the merge source: resolve a binding standalone
relation within entity `i`. -/
def getModelRelation (br : BindingRelation) (i : Nat) (m : ModelInfo) :
    Except Err (Nat × ModelInfo) :=
  if br.Uid ≠ 0 then
    match findRelIdxByUid (getEntityD m i) br.Uid with
    | some j => .ok (j, m)
    | none => .error (.relationUidNotFound br.Uid)
  else
    match findRelIdxByName (getEntityD m i) br.Name with
    | some j =>
        if br.uidRequest then
          .error (.relationUidRequestExists br.Name (getEntityD m i).Name
            ((getEntityD m i).Relations.getD j default).Id.uid)
        else
          .ok (j, m)
    | none =>
        if br.uidRequest then
          .error (.relationUidRequestNotFound br.Name (getEntityD m i).Name)
        else
          .ok (createRelation i m)

/-- `mergeModelRelation` from the merge source: copy the binding name onto
the model relation, write the pair back, resolve the target entity by name
in the document (a missing target is a fatal error) and record the
target's identity. -/
def mergeModelRelation (br : BindingRelation) (i j : Nat) (m : ModelInfo) :
    Except Err (BindingRelation × ModelInfo) :=
  let r := getRelD m i j
  let r1 := { r with Name := br.Name }
  let m1 := setRel m i j r1
  let br1 := { br with Id := r1.Id.id, Uid := r1.Id.uid }
  match findEntityIdxByName m1 br.Target.Name with
  | none => .error (.entityNameNotFound br.Target.Name)
  | some t =>
      let te := getEntityD m1 t
      let br2 := { br1 with Target := { br1.Target with Id := te.Id.id, Uid := te.Id.uid } }
      .ok (br2, setRel m1 i j { r1 with TargetId := te.Id })

/-- The property loop of `mergeModelEntity`: resolve and merge every
binding property of entity `i` in order, collecting the written-back
binding properties. -/
def mergeProperties (i : Nat) : List BindingProperty → ModelInfo →
    Except Err (List BindingProperty × ModelInfo)
  | [], m => .ok ([], m)
  | bp :: rest, m => do
      let (j, m1) ← getModelProperty bp i m
      let (bp', m2) ← mergeModelProperty bp i j m1
      let (bps, m3) ← mergeProperties i rest m2
      .ok (bp' :: bps, m3)

/-- The relation loop of `mergeModelEntity`. -/
def mergeRelations (i : Nat) : List BindingRelation → ModelInfo →
    Except Err (List BindingRelation × ModelInfo)
  | [], m => .ok ([], m)
  | br :: rest, m => do
      let (j, m1) ← getModelRelation br i m
      let (br', m2) ← mergeModelRelation br i j m1
      let (brs, m3) ← mergeRelations i rest m2
      .ok (br' :: brs, m3)

/-- `mergeModelEntity` from the merge source: rename the model entity,
write its pair back into the binding, merge all binding properties, prune
model properties with no same-named binding property, copy the entity's
`lastPropertyId` back, then merge and prune standalone relations. -/
def mergeModelEntity (be : BindingEntity) (i : Nat) (m : ModelInfo) :
    Except Err (BindingEntity × ModelInfo) :=
  let m1 := updEntity m i (fun e => { e with Name := be.Name })
  let e1 := getEntityD m1 i
  let be1 := { be with Id := e1.Id.id, Uid := e1.Id.uid }
  do
    let (bps, m2) ← mergeProperties i be.Properties m1
    let m3 := removeMissingProperties be i m2
    let be2 := { be1 with Properties := bps, LastPropertyId := (getEntityD m3 i).LastPropertyId }
    let (brs, m4) ← mergeRelations i be.Relations m3
    let m5 := removeMissingRelations be i m4
    .ok ({ be2 with Relations := brs }, m5)

/-- The entity-resolution pass of `mergeBindingWithModelInfo`: resolve
every binding entity first, collecting their document indices, so that
relation reconciliation can find all entities. -/
def resolveEntities : List BindingEntity → ModelInfo →
    Except Err (List Nat × ModelInfo)
  | [], m => .ok ([], m)
  | be :: rest, m => do
      let (i, m1) ← getModelEntity be m
      let (idxs, m2) ← resolveEntities rest m1
      .ok (i :: idxs, m2)

/-- The merge pass of `mergeBindingWithModelInfo`. -/
def mergeEntities : List (BindingEntity × Nat) → ModelInfo →
    Except Err (List BindingEntity × ModelInfo)
  | [], m => .ok ([], m)
  | (be, i) :: rest, m => do
      let (be', m1) ← mergeModelEntity be i m
      let (bes, m2) ← mergeEntities rest m1
      .ok (be' :: bes, m2)

/-- `mergeBindingWithModelInfo` from the merge source: resolve all
entities in one pass, then merge each entity (properties, then
relations), finally record the binding's package name. -/
def mergeBindingWithModelInfo (b : Binding) (m : ModelInfo) :
    Except Err (Binding × ModelInfo) := do
  let (idxs, m1) ← resolveEntities b.Entities m
  let (bes, m2) ← mergeEntities (b.Entities.zip idxs) m1
  .ok ({ b with Entities := bes }, { m2 with Package := b.Pkg })

/-- The legacy version backfill of `loadModelFromJSONFile`: a loaded
document whose version fields are both zero and whose first note is empty
predates versioning and is treated as version 4. -/
def applyLegacyVersionBackfill (m : ModelInfo) : ModelInfo :=
  if m.ModelVersion = 0 ∧ m.MinimumParserVersion = 0 ∧ m.Note1 = "" then
    { m with ModelVersion := 4, MinimumParserVersion := 4 }
  else
    m

/-- `l'` extends `l` by appending elements at the end.  Pass one of the
merge (entity resolution) only ever appends to the entity list. -/
def ListExtends (l l' : List α) : Prop :=
  ∃ t, l' = l ++ t

/-- The local-id sequence of a property list. -/
def propIds (ps : List Property) : List Nat :=
  ps.map (fun p => p.Id.id)

/-- The identity-pair sequence of a relation list. -/
def relPairs (rs : List StandaloneRelation) : List IdUid :=
  rs.map (fun r => r.Id)

/-- One evolution step of an id sequence: the new sequence is some
surviving subsequence of the old one followed by entries that each satisfy
the freshness predicate `P` (instantiated below with "beyond the relevant
identity counter", which no pre-existing identity satisfies).  Updates in
place never change the tracked component. -/
def SeqEvolves (P : α → Prop) (old new : List α) : Prop :=
  ∃ kept fresh, new = kept ++ fresh ∧ kept.Sublist old ∧ ∀ a ∈ fresh, P a

/-- Document evolution across a successful merge: entity pairs are stable
pointwise, the per-entity `lastPropertyId` local id and the document's
`lastRelationId` local id never decrease, and per entity the property
local ids and the relation identity pairs of the result are a surviving
subsequence of the originals followed by strictly fresh ones — local ids
beyond the entity's previous `lastPropertyId` for properties, ids beyond
the document's previous `lastRelationId` for relation pairs. -/
def DocEvolves (m m' : ModelInfo) : Prop :=
  m.Entities.length ≤ m'.Entities.length ∧
  m.LastRelationId.id ≤ m'.LastRelationId.id ∧
  ∀ i, i < m.Entities.length →
    (getEntityD m' i).Id = (getEntityD m i).Id ∧
    (getEntityD m i).LastPropertyId.id ≤ (getEntityD m' i).LastPropertyId.id ∧
    SeqEvolves (fun pid => (getEntityD m i).LastPropertyId.id < pid)
      (propIds (getEntityD m i).Properties) (propIds (getEntityD m' i).Properties) ∧
    SeqEvolves (fun pr : IdUid => m.LastRelationId.id < pr.id)
      (relPairs (getEntityD m i).Relations) (relPairs (getEntityD m' i).Relations)

/-- The frame every pass-two merge operation respects: the entity list
keeps its length, every entity keeps its identity pair, the per-entity
`lastPropertyId` local id and the document's `lastRelationId` local id
never decrease, and the property local-id and relation identity-pair
sequences only evolve by in-place survival plus appends of strictly fresh
entries (beyond the respective counters of `m`). -/
def EntityFrame (m m' : ModelInfo) : Prop :=
  m'.Entities.length = m.Entities.length ∧
  (∀ k, (getEntityD m' k).Id = (getEntityD m k).Id) ∧
  (∀ k, (getEntityD m k).LastPropertyId.id ≤ (getEntityD m' k).LastPropertyId.id) ∧
  m.LastRelationId.id ≤ m'.LastRelationId.id ∧
  (∀ k, SeqEvolves (fun pid => (getEntityD m k).LastPropertyId.id < pid)
    (propIds (getEntityD m k).Properties) (propIds (getEntityD m' k).Properties)) ∧
  (∀ k, SeqEvolves (fun pr : IdUid => m.LastRelationId.id < pr.id)
    (relPairs (getEntityD m k).Relations) (relPairs (getEntityD m' k).Relations))

/-- Names-and-length frame: every operation inside the merge pass except
the initial entity rename keeps the entity list's length and every
entity's name. -/
def NamesFrame (m m' : ModelInfo) : Prop :=
  m'.Entities.length = m.Entities.length ∧
  ∀ k, (getEntityD m' k).Name = (getEntityD m k).Name

/-! Concrete instances used by witnesses and counterexamples. -/

/-- An empty model document with current version fields. -/
def emptyModelInfo : ModelInfo :=
  { Entities := [], LastEntityId := ⟨0, 0⟩, LastIndexId := ⟨0, 0⟩, LastRelationId := ⟨0, 0⟩
    RetiredEntityUids := [], RetiredIndexUids := [], RetiredPropertyUids := []
    RetiredRelationUids := [], ModelVersion := 5, MinimumParserVersion := 5
    Note1 := "keep", Package := "pkg" }

/-- Document for the repeated-merge counterexample: entities `A` and `X`. -/
def cexModel : ModelInfo :=
  { emptyModelInfo with
      Entities :=
        [{ Id := ⟨1, 101⟩, Name := "A", LastPropertyId := ⟨0, 0⟩, Properties := [], Relations := [] },
         { Id := ⟨2, 102⟩, Name := "X", LastPropertyId := ⟨0, 0⟩, Properties := [], Relations := [] }]
      LastEntityId := ⟨2, 102⟩ }

/-- Binding for the repeated-merge counterexample: entity `A` owns a
standalone relation targeting `X` by name, and a second binding entity
carries the explicit uid of `X` while renaming it to `Y`. -/
def cexBinding : Binding :=
  { Entities :=
      [{ Name := "A", Uid := 0, uidRequest := false, Id := 0, LastPropertyId := ⟨0, 0⟩
         Properties := []
         Relations := [{ Name := "R", Uid := 0, uidRequest := false, Id := 0
                         Target := { Name := "X", Id := 0, Uid := 0 } }] },
       { Name := "Y", Uid := 102, uidRequest := false, Id := 0, LastPropertyId := ⟨0, 0⟩
         Properties := [], Relations := [] }]
    Pkg := "pkg" }

/-- The document produced by the first (successful) merge of `cexBinding`
into `cexModel`. -/
def cexModelAfter : ModelInfo :=
  match mergeBindingWithModelInfo cexBinding cexModel with
  | .ok (_, m) => m
  | .error _ => emptyModelInfo

/-- Document for the uid-rewrite repeated-merge counterexample: entity `W`
holds property `M`, entity `X` holds property `N` with pair `(1, 900)`. -/
def cex2Model : ModelInfo :=
  { emptyModelInfo with
      Entities :=
        [{ Id := ⟨1, 101⟩, Name := "W", LastPropertyId := ⟨1, 111⟩
           Properties := [{ Id := ⟨1, 111⟩, Name := "M", IndexId := none
                            RelationTarget := "", Typ := 9, Flags := 0 }]
           Relations := [] },
         { Id := ⟨2, 102⟩, Name := "X", LastPropertyId := ⟨1, 900⟩
           Properties := [{ Id := ⟨1, 900⟩, Name := "N", IndexId := none
                            RelationTarget := "", Typ := 9, Flags := 0 }]
           Relations := [] }]
      LastEntityId := ⟨2, 102⟩ }

/-- Binding for the uid-rewrite counterexample: the first binding entity,
named `X`, carries property `N` with explicit uid `900`; the second
matches entity `W` by its uid `101` and renames it to `X`, carrying a
same-named property `N` with no explicit uid. -/
def cex2Binding : Binding :=
  { Entities :=
      [{ Name := "X", Uid := 0, uidRequest := false, Id := 0, LastPropertyId := ⟨0, 0⟩
         Properties := [{ Name := "N", Uid := 900, uidRequest := false, Id := 0, Index := none
                          Relation := none, ObType := 9, Flags := 0, entityName := "X" }]
         Relations := [] },
       { Name := "X", Uid := 101, uidRequest := false, Id := 0, LastPropertyId := ⟨0, 0⟩
         Properties := [{ Name := "N", Uid := 0, uidRequest := false, Id := 0, Index := none
                          Relation := none, ObType := 9, Flags := 0, entityName := "X" }]
         Relations := [] }]
    Pkg := "pkg" }

/-- Result of the first merge of `cex2Binding` into `cex2Model`. -/
def cex2Once : Binding × ModelInfo :=
  match mergeBindingWithModelInfo cex2Binding cex2Model with
  | .ok r => r
  | .error _ => (cex2Binding, emptyModelInfo)

/-- Result of the second merge of `cex2Binding` into the first result. -/
def cex2Twice : Binding × ModelInfo :=
  match mergeBindingWithModelInfo cex2Binding cex2Once.2 with
  | .ok r => r
  | .error _ => (cex2Binding, emptyModelInfo)

/-- Binding for the relation-target counterexample: the relation targets
`Y`, the post-merge (binding) name of the second entity, which the
document still carries under its old name `X` when the relation merges. -/
def cexBindingFwd : Binding :=
  { Entities :=
      [{ Name := "A", Uid := 0, uidRequest := false, Id := 0, LastPropertyId := ⟨0, 0⟩
         Properties := []
         Relations := [{ Name := "R", Uid := 0, uidRequest := false, Id := 0
                         Target := { Name := "Y", Id := 0, Uid := 0 } }] },
       { Name := "Y", Uid := 102, uidRequest := false, Id := 0, LastPropertyId := ⟨0, 0⟩
         Properties := [], Relations := [] }]
    Pkg := "pkg" }

/-- Document for the unknown-property-uid counterexample: entity `C` with
one property `PX` of pair `(1, 201)`. -/
def cexModelProp : ModelInfo :=
  { emptyModelInfo with
      Entities :=
        [{ Id := ⟨1, 101⟩, Name := "C", LastPropertyId := ⟨1, 201⟩
           Properties := [{ Id := ⟨1, 201⟩, Name := "PX", IndexId := none
                            RelationTarget := "", Typ := 9, Flags := 0 }]
           Relations := [] }]
      LastEntityId := ⟨1, 101⟩ }

/-- Binding property carrying explicit uid `999`, which occurs nowhere in
`cexModelProp`, under the existing name `PX`. -/
def cexBindingProp : BindingProperty :=
  { Name := "PX", Uid := 999, uidRequest := false, Id := 0, Index := none
    Relation := none, ObType := 9, Flags := 0, entityName := "C" }

/-- A legacy-looking document with zero version fields but a nonempty
first note. -/
def cexVersionModel : ModelInfo :=
  { emptyModelInfo with ModelVersion := 0, MinimumParserVersion := 0, Note1 := "note" }

/-- A true pre-versioning document: zero version fields and no note. -/
def legacyVersionModel : ModelInfo :=
  { emptyModelInfo with ModelVersion := 0, MinimumParserVersion := 0, Note1 := "" }

/-- Binding entity carrying the explicit uid of entity `A` of `cexModel`. -/
def witBindingEntityUid : BindingEntity :=
  { Name := "A2", Uid := 101, uidRequest := false, Id := 0, LastPropertyId := ⟨0, 0⟩
    Properties := [], Relations := [] }

/-- Binding entity matching nothing in `cexModel`, to be created. -/
def witBindingEntityNew : BindingEntity :=
  { Name := "NEW", Uid := 0, uidRequest := false, Id := 0, LastPropertyId := ⟨0, 0⟩
    Properties := [], Relations := [] }

/-- Binding entity with a pending uid request and the existing name `X`. -/
def witBindingEntityReqX : BindingEntity :=
  { Name := "X", Uid := 0, uidRequest := true, Id := 0, LastPropertyId := ⟨0, 0⟩
    Properties := [], Relations := [] }

/-- Binding entity with a pending uid request and an unknown name `Z`. -/
def witBindingEntityReqZ : BindingEntity :=
  { Name := "Z", Uid := 0, uidRequest := true, Id := 0, LastPropertyId := ⟨0, 0⟩
    Properties := [], Relations := [] }

/-- Binding property with explicit uid `999` and a name matching nothing
in `cexModelProp`. -/
def witBindingPropMiss : BindingProperty :=
  { Name := "NOPE", Uid := 999, uidRequest := false, Id := 0, Index := none
    Relation := none, ObType := 9, Flags := 0, entityName := "C" }

/-- Document with an entity `D` holding an indexed property `PI` and a
plain property `PP`. -/
def witModelIdx : ModelInfo :=
  { emptyModelInfo with
      Entities :=
        [{ Id := ⟨1, 100⟩, Name := "D", LastPropertyId := ⟨2, 402⟩
           Properties :=
             [{ Id := ⟨1, 401⟩, Name := "PI", IndexId := some ⟨1, 301⟩
                RelationTarget := "", Typ := 9, Flags := 2048 },
              { Id := ⟨2, 402⟩, Name := "PP", IndexId := none
                RelationTarget := "", Typ := 6, Flags := 0 }]
           Relations := [] }]
      LastEntityId := ⟨1, 100⟩
      LastIndexId := ⟨1, 301⟩ }

/-- Binding property `PI` without an index request (drops the index). -/
def witBpDropIndex : BindingProperty :=
  { Name := "PI", Uid := 0, uidRequest := false, Id := 0, Index := none
    Relation := none, ObType := 9, Flags := 0, entityName := "D" }

/-- Binding property `PP` with an index request (creates an index). -/
def witBpAddIndex : BindingProperty :=
  { Name := "PP", Uid := 0, uidRequest := false, Id := 0, Index := some ⟨0, 0⟩
    Relation := none, ObType := 6, Flags := 8, entityName := "D" }

/-- Binding property `PI` keeping its index request (reuses the index). -/
def witBpKeepIndex : BindingProperty :=
  { Name := "PI", Uid := 0, uidRequest := false, Id := 0, Index := some ⟨0, 0⟩
    Relation := none, ObType := 9, Flags := 2048, entityName := "D" }

/-- Binding property renaming `PI` (matched by its uid `401`) while
keeping the index request, type and flags identical. -/
def witBpRename : BindingProperty :=
  { Name := "Position", Uid := 401, uidRequest := false, Id := 0, Index := some ⟨0, 0⟩
    Relation := none, ObType := 9, Flags := 2048, entityName := "D" }

/-- A plain binding for the repeated-merge witness: entity `A` with one
new property, no relations. -/
def witBindingSimple : Binding :=
  { Entities :=
      [{ Name := "A", Uid := 0, uidRequest := false, Id := 0, LastPropertyId := ⟨0, 0⟩
         Properties :=
           [{ Name := "P1", Uid := 0, uidRequest := false, Id := 0, Index := none
              Relation := none, ObType := 9, Flags := 0, entityName := "A" }]
         Relations := [] }]
    Pkg := "pkg" }

/-- The binding produced by the first (successful) merge of `cexBinding`
into `cexModel`. -/
def cexBindingAfter : Binding :=
  match mergeBindingWithModelInfo cexBinding cexModel with
  | .ok (bb, _) => bb
  | .error _ => default

/-- Result of the first merge of `witBindingSimple` into `cexModel`. -/
def witMergeOnce : Binding × ModelInfo :=
  match mergeBindingWithModelInfo witBindingSimple cexModel with
  | .ok r => r
  | .error _ => default

/-- Result of merging `witBindingSimple` a second time. -/
def witMergeTwice : Binding × ModelInfo :=
  match mergeBindingWithModelInfo witBindingSimple witMergeOnce.2 with
  | .ok r => r
  | .error _ => default

/-- The plain property `PP` of `witModelIdx`. -/
def witPropPP : Property :=
  { Id := ⟨2, 402⟩, Name := "PP", IndexId := none, RelationTarget := "", Typ := 6, Flags := 0 }

/-- Binding entity `D` that keeps only property `PI`, so that merging it
removes `PP`. -/
def witBindingEntityPI : BindingEntity :=
  { Name := "D", Uid := 0, uidRequest := false, Id := 0, LastPropertyId := ⟨0, 0⟩
    Properties := [witBpKeepIndex], Relations := [] }

/-- Result of merging `witBindingEntityPI` into entity `0` of
`witModelIdx`. -/
def witEntityMergeRes : BindingEntity × ModelInfo :=
  match mergeModelEntity witBindingEntityPI 0 witModelIdx with
  | .ok r => r
  | .error _ => default

/-- A binding relation targeting a name absent from `cexModel`. -/
def witBrMissing : BindingRelation :=
  { Name := "R", Uid := 0, uidRequest := false, Id := 0
    Target := { Name := "ZZZ", Id := 0, Uid := 0 } }

/-- A binding without explicit entity uids whose only relation targets the
binding entity `B2`. -/
def witBindingRel : Binding :=
  { Entities :=
      [{ Name := "A", Uid := 0, uidRequest := false, Id := 0, LastPropertyId := ⟨0, 0⟩
         Properties := []
         Relations := [{ Name := "R", Uid := 0, uidRequest := false, Id := 0
                         Target := { Name := "B2", Id := 0, Uid := 0 } }] },
       { Name := "B2", Uid := 0, uidRequest := false, Id := 0, LastPropertyId := ⟨0, 0⟩
         Properties := [], Relations := [] }]
    Pkg := "pkg" }

end ObxGen

namespace ObxGen

/-! ### Basic lemmas about the helpers -/

theorem findIndexOpt_eq_none_iff (p : α → Bool) (l : List α) :
    findIndexOpt p l = none ↔ ∀ x ∈ l, p x = false := by
  induction l with
  | nil => simp [findIndexOpt]
  | cons a as ih =>
      by_cases h : p a = true
      · simp [findIndexOpt, h]
      · have h' : p a = false := by simpa using h
        simp [findIndexOpt, h', ih]

theorem findIndexOpt_some_lt (p : α → Bool) (l : List α) (i : Nat)
    (h : findIndexOpt p l = some i) : i < l.length := by
  induction l generalizing i with
  | nil => simp [findIndexOpt] at h
  | cons a as ih =>
      by_cases hp : p a = true
      · simp [findIndexOpt, hp] at h
        simp [← h]
      · have hp' : p a = false := by simpa using hp
        simp [findIndexOpt, hp'] at h
        obtain ⟨k, hk, hki⟩ := h
        have := ih k hk
        simp [← hki]
        omega

theorem findIndexOpt_some_getD (p : α → Bool) (l : List α) (i : Nat) (d : α)
    (h : findIndexOpt p l = some i) : p (l.getD i d) = true := by
  induction l generalizing i with
  | nil => simp [findIndexOpt] at h
  | cons a as ih =>
      by_cases hp : p a = true
      · simp [findIndexOpt, hp] at h
        simpa [← h] using hp
      · have hp' : p a = false := by simpa using hp
        simp [findIndexOpt, hp'] at h
        obtain ⟨k, hk, hki⟩ := h
        have := ih k hk
        simpa [← hki] using this

theorem mem_le_foldr_max (l : List Nat) (x : Nat) (hx : x ∈ l) :
    x ≤ l.foldr max 0 := by
  induction l with
  | nil => simp at hx
  | cons a as ih =>
      rcases List.mem_cons.mp hx with h | h
      · simp [h, Nat.le_max_left]
      · exact le_trans (ih h) (by simp [Nat.le_max_right])

theorem generateUid_not_mem (m : ModelInfo) : generateUid m ∉ allUids m := by
  intro hmem
  have := mem_le_foldr_max (allUids m) _ hmem
  unfold generateUid at this
  omega

theorem generateUid_ne_zero (m : ModelInfo) : generateUid m ≠ 0 := by
  unfold generateUid
  omega

theorem getEntityD_mem (m : ModelInfo) (i : Nat) (hi : i < m.Entities.length) :
    getEntityD m i ∈ m.Entities := by
  rw [getEntityD, List.getD_eq_getElem?_getD, List.getElem?_eq_getElem hi]
  exact List.getElem_mem hi

theorem propUid_mem_allUids (m : ModelInfo) (i : Nat) (hi : i < m.Entities.length)
    (p : Property) (hp : p ∈ (getEntityD m i).Properties) : p.Id.uid ∈ allUids m := by
  have he := getEntityD_mem m i hi
  have h1 : p.Id.uid ∈ entityUids (getEntityD m i) := by
    unfold entityUids
    simp only [List.mem_cons, List.mem_append]
    exact Or.inr (Or.inr (Or.inl (Or.inl (List.mem_map_of_mem _ hp))))
  unfold allUids
  simp only [List.mem_cons, List.mem_append, List.mem_flatten]
  exact Or.inr (Or.inr (Or.inr (Or.inl (Or.inl (Or.inl (Or.inl
    ⟨entityUids (getEntityD m i), List.mem_map_of_mem _ he, h1⟩))))))

/-! ### C9 — legacy version backfill -/

/-- C9 (amended): a loaded document with both version fields zero and an
empty first note is backfilled to version 4/4; a document with any version
field set keeps its stored versions. -/
theorem c9_version_backfill (m : ModelInfo) :
    (m.ModelVersion = 0 → m.MinimumParserVersion = 0 → m.Note1 = "" →
      (applyLegacyVersionBackfill m).ModelVersion = 4 ∧
      (applyLegacyVersionBackfill m).MinimumParserVersion = 4) ∧
    (m.ModelVersion ≠ 0 ∨ m.MinimumParserVersion ≠ 0 →
      (applyLegacyVersionBackfill m).ModelVersion = m.ModelVersion ∧
      (applyLegacyVersionBackfill m).MinimumParserVersion = m.MinimumParserVersion) := by
  constructor
  · intro h1 h2 h3
    simp [applyLegacyVersionBackfill, h1, h2, h3]
  · intro h
    rcases h with h | h <;> simp [applyLegacyVersionBackfill, h]

/-- C9 witness: the backfill theorem applied to a pre-versioning document
and to a current one. -/
theorem c9_version_backfill_witness :
    ((applyLegacyVersionBackfill legacyVersionModel).ModelVersion = 4 ∧
     (applyLegacyVersionBackfill legacyVersionModel).MinimumParserVersion = 4) ∧
    ((applyLegacyVersionBackfill emptyModelInfo).ModelVersion = emptyModelInfo.ModelVersion ∧
     (applyLegacyVersionBackfill emptyModelInfo).MinimumParserVersion =
       emptyModelInfo.MinimumParserVersion) :=
  ⟨(c9_version_backfill legacyVersionModel).1 rfl rfl rfl,
   (c9_version_backfill emptyModelInfo).2 (Or.inl (by decide))⟩

/-- C9 counterexample: both version fields are zero, yet the loader does
not backfill, because the document's first note is nonempty. -/
theorem c9_counterexample :
    cexVersionModel.ModelVersion = 0 ∧ cexVersionModel.MinimumParserVersion = 0 ∧
    (applyLegacyVersionBackfill cexVersionModel).ModelVersion = 0 ∧
    ¬ (applyLegacyVersionBackfill cexVersionModel).ModelVersion = 4 := by
  refine ⟨rfl, rfl, ?_, ?_⟩ <;> decide

/-! ### C2 — entity resolution precedence -/

/-- C2: entity resolution — an explicit uid is looked up in the document
and an unknown uid fails with the unknown-uid error; with no explicit uid
and no uid request, a name miss creates a new entity with local id one
past `lastEntityId.id` and a fresh nonzero uid, appended to the list. -/
theorem c2_entity_resolution (be : BindingEntity) (m : ModelInfo) :
    (be.Uid ≠ 0 →
      (∀ i, findEntityIdxByUid m be.Uid = some i →
        getModelEntity be m = .ok (i, m) ∧ (getEntityD m i).Id.uid = be.Uid) ∧
      ((∀ e ∈ m.Entities, e.Id.uid ≠ be.Uid) →
        getModelEntity be m = .error (.entityUidNotFound be.Uid))) ∧
    (be.Uid = 0 → be.uidRequest = false →
      (∀ i, findEntityIdxByName m be.Name = some i → getModelEntity be m = .ok (i, m)) ∧
      ((∀ e ∈ m.Entities, e.Name ≠ be.Name) →
        getModelEntity be m =
          .ok (m.Entities.length,
            { m with
                Entities := m.Entities ++
                  [{ Id := ⟨m.LastEntityId.id + 1, generateUid m⟩, Name := be.Name
                     LastPropertyId := ⟨0, 0⟩, Properties := [], Relations := [] }]
                LastEntityId := ⟨m.LastEntityId.id + 1, generateUid m⟩ }) ∧
        generateUid m ∉ allUids m ∧ generateUid m ≠ 0)) := by
  constructor
  · intro hne
    constructor
    · intro i hfind
      have hgd := findIndexOpt_some_getD _ _ _ default hfind
      refine ⟨?_, by simpa [getEntityD] using hgd⟩
      unfold getModelEntity
      simp [hne, findEntityIdxByUid] at *
      simp [hfind]
    · intro hall
      have hnone : findEntityIdxByUid m be.Uid = none := by
        rw [findEntityIdxByUid, findIndexOpt_eq_none_iff]
        intro x hx
        simpa using hall x hx
      unfold getModelEntity
      simp [hne, hnone]
  · intro h0 hr
    constructor
    · intro i hfind
      unfold getModelEntity
      simp [h0, hr, hfind]
    · intro hall
      have hnone : findEntityIdxByName m be.Name = none := by
        rw [findEntityIdxByName, findIndexOpt_eq_none_iff]
        intro x hx
        simpa using hall x hx
      unfold getModelEntity createEntity
      simp [h0, hr, hnone]
      exact ⟨generateUid_not_mem m, generateUid_ne_zero m⟩

/-- C2 witness: resolution by explicit uid and creation on a name miss,
on the concrete document `cexModel`. -/
theorem c2_entity_resolution_witness :
    (getModelEntity witBindingEntityUid cexModel = .ok (0, cexModel) ∧
     (getEntityD cexModel 0).Id.uid = witBindingEntityUid.Uid) ∧
    (getModelEntity witBindingEntityNew cexModel =
      .ok (cexModel.Entities.length,
        { cexModel with
            Entities := cexModel.Entities ++
              [{ Id := ⟨cexModel.LastEntityId.id + 1, generateUid cexModel⟩
                 Name := witBindingEntityNew.Name
                 LastPropertyId := ⟨0, 0⟩, Properties := [], Relations := [] }]
            LastEntityId := ⟨cexModel.LastEntityId.id + 1, generateUid cexModel⟩ })) := by
  have h1 := c2_entity_resolution witBindingEntityUid cexModel
  have h2 := c2_entity_resolution witBindingEntityNew cexModel
  exact ⟨(h1.1 (by decide)).1 0 (by decide), ((h2.2 rfl rfl).2 (by decide)).1⟩

/-! ### C4 — entity uid-request protocol -/

/-- C4: a binding entity with a pending uid request and no explicit uid
always fails: when a same-named entity exists the error reports its
existing uid, otherwise a not-found error is reported; the existing uid is
never applied. -/
theorem c4_entity_uid_request (be : BindingEntity) (m : ModelInfo)
    (h0 : be.Uid = 0) (hr : be.uidRequest = true) :
    (∀ i, findEntityIdxByName m be.Name = some i →
      getModelEntity be m =
        .error (.entityUidRequestExists be.Name (getEntityD m i).Id.uid) ∧
      (getEntityD m i).Name = be.Name) ∧
    ((∀ e ∈ m.Entities, e.Name ≠ be.Name) →
      getModelEntity be m = .error (.entityUidRequestNotFound be.Name)) := by
  constructor
  · intro i hfind
    have hgd := findIndexOpt_some_getD _ _ _ default hfind
    refine ⟨?_, by simpa [getEntityD] using hgd⟩
    unfold getModelEntity
    simp [h0, hr, hfind]
  · intro hall
    have hnone : findEntityIdxByName m be.Name = none := by
      rw [findEntityIdxByName, findIndexOpt_eq_none_iff]
      intro x hx
      simpa using hall x hx
    unfold getModelEntity
    simp [h0, hr, hnone]

/-- C4 witness: both uid-request outcomes on the concrete document
`cexModel`. -/
theorem c4_entity_uid_request_witness :
    (getModelEntity witBindingEntityReqX cexModel =
      .error (.entityUidRequestExists witBindingEntityReqX.Name (getEntityD cexModel 1).Id.uid) ∧
     (getEntityD cexModel 1).Name = witBindingEntityReqX.Name) ∧
    getModelEntity witBindingEntityReqZ cexModel =
      .error (.entityUidRequestNotFound witBindingEntityReqZ.Name) := by
  have h1 := c4_entity_uid_request witBindingEntityReqX cexModel rfl rfl
  have h2 := c4_entity_uid_request witBindingEntityReqZ cexModel rfl rfl
  exact ⟨h1.1 1 (by decide), h2.2 (by decide)⟩

end ObxGen

namespace ObxGen

/-! ### List update lemmas -/

theorem getD_set_self (l : List α) (i : Nat) (a d : α) (h : i < l.length) :
    (l.set i a).getD i d = a := by
  induction l generalizing i with
  | nil => simp at h
  | cons b bs ih =>
      cases i with
      | zero => rfl
      | succ k =>
          simp only [List.set, List.getD, List.get?]
          exact ih k (by simpa using h)

theorem getD_set_ne (l : List α) (i k : Nat) (a d : α) (h : i ≠ k) :
    (l.set i a).getD k d = l.getD k d := by
  induction l generalizing i k with
  | nil => simp
  | cons b bs ih =>
      cases i with
      | zero =>
          cases k with
          | zero => exact absurd rfl h
          | succ k2 => rfl
      | succ i2 =>
          cases k with
          | zero => rfl
          | succ k2 =>
              simp only [List.set, List.getD, List.get?]
              exact ih i2 k2 (by omega)

theorem getEntityD_setEntity_self (m : ModelInfo) (i : Nat) (e : Entity)
    (hi : i < m.Entities.length) : getEntityD (setEntity m i e) i = e := by
  unfold getEntityD setEntity
  exact getD_set_self _ _ _ _ hi

theorem getEntityD_setEntity_ne (m : ModelInfo) (i k : Nat) (e : Entity)
    (h : i ≠ k) : getEntityD (setEntity m i e) k = getEntityD m k := by
  unfold getEntityD setEntity
  exact getD_set_ne _ _ _ _ _ h

theorem getPropD_setProp_self (m : ModelInfo) (i j : Nat) (p : Property)
    (hi : i < m.Entities.length) (hj : j < (getEntityD m i).Properties.length) :
    getPropD (setProp m i j p) i j = p := by
  unfold getPropD setProp updEntity
  rw [getEntityD_setEntity_self _ _ _ hi]
  exact getD_set_self _ _ _ _ hj

/-! ### C3 — unknown property uid -/

theorem findPropIdxByUid_none_of_not_mem (m : ModelInfo) (i : Nat)
    (hi : i < m.Entities.length) (uid : Nat) (h : uid ∉ allUids m) :
    findPropIdxByUid (getEntityD m i) uid = none := by
  rw [findPropIdxByUid, findIndexOpt_eq_none_iff]
  intro p hp
  rw [decide_eq_false_iff_not]
  intro heq
  exact h (heq ▸ propUid_mem_allUids m i hi p hp)

/-- C3 (amended): a binding property with an explicit non-zero uid found
nowhere in the document fails reconciliation with an identity-not-found
error naming that uid and the property name — unless the entity holds a
property with the binding property's name, in which case that property is
matched by name (the reset-property-data use-case) and reconciliation
proceeds with it. -/
theorem c3_property_unknown_uid (bp : BindingProperty) (i : Nat) (m : ModelInfo)
    (hi : i < m.Entities.length) (h0 : bp.Uid ≠ 0) (habs : bp.Uid ∉ allUids m) :
    (findPropIdxByName (getEntityD m i) bp.Name = none →
      getModelProperty bp i m = .error (.propertyUidAndNameNotFound bp.Uid bp.Name)) ∧
    (∀ j, findPropIdxByName (getEntityD m i) bp.Name = some j →
      getModelProperty bp i m = .ok (j, m)) := by
  have hnone := findPropIdxByUid_none_of_not_mem m i hi bp.Uid habs
  constructor
  · intro hn
    unfold getModelProperty
    simp [h0, hnone, hn]
  · intro j hj
    unfold getModelProperty
    simp [h0, hnone, hj]

/-- C3 witness: the identity-not-found outcome and the name-fallback
outcome of the amended theorem at concrete inputs. -/
theorem c3_property_unknown_uid_witness :
    getModelProperty witBindingPropMiss 0 cexModelProp =
      .error (.propertyUidAndNameNotFound witBindingPropMiss.Uid witBindingPropMiss.Name) ∧
    getModelProperty cexBindingProp 0 cexModelProp = .ok (0, cexModelProp) := by
  have h1 := c3_property_unknown_uid witBindingPropMiss 0 cexModelProp
    (by decide) (by decide) (by decide)
  have h2 := c3_property_unknown_uid cexBindingProp 0 cexModelProp
    (by decide) (by decide) (by decide)
  exact ⟨h1.1 (by decide), h2.2 0 (by decide)⟩

/-- C3 counterexample: uid `999` occurs nowhere in `cexModelProp`, yet
resolution succeeds by matching the property name `PX` instead of
failing — the claim's "never proceeds by matching such a property some
other way" is false. -/
theorem c3_counterexample :
    cexBindingProp.Uid = 999 ∧ (999 ∉ allUids cexModelProp) ∧
    getModelProperty cexBindingProp 0 cexModelProp = .ok (0, cexModelProp) := by
  refine ⟨rfl, by decide, rfl⟩

end ObxGen

namespace ObxGen

/-! ### Characterization of `mergeModelProperty` -/

theorem mergedId_id (bp : BindingProperty) (p : Property) :
    (if bp.Uid ≠ 0 then (⟨p.Id.id, bp.Uid⟩ : IdUid) else p.Id).id = p.Id.id := by
  by_cases h : bp.Uid ≠ 0 <;> simp [h]

theorem mergeModelProperty_spec (bp : BindingProperty) (i j : Nat) (m : ModelInfo)
    (pid : IdUid)
    (hpid : pid = (if bp.Uid ≠ 0
        then (⟨(getPropD m i j).Id.id, bp.Uid⟩ : IdUid) else (getPropD m i j).Id)) :
    mergeModelProperty bp i j m =
      match bp.Index, (getPropD m i j).IndexId with
      | none, none =>
          .ok ({ bp with Id := pid.id, Uid := pid.uid },
               setProp m i j { Id := pid, Name := bp.Name, IndexId := none
                               RelationTarget := bp.Relation.getD ""
                               Typ := bp.ObType, Flags := bp.Flags })
      | none, some iu =>
          .ok ({ bp with Id := pid.id, Uid := pid.uid },
               setProp { m with RetiredIndexUids := m.RetiredIndexUids ++ [iu.uid] } i j
                 { Id := pid, Name := bp.Name, IndexId := none
                   RelationTarget := bp.Relation.getD ""
                   Typ := bp.ObType, Flags := bp.Flags })
      | some _, none =>
          .ok ({ bp with Id := pid.id, Uid := pid.uid
                         Index := some ⟨m.LastIndexId.id + 1, generateUid m⟩ },
               setProp { m with LastIndexId := ⟨m.LastIndexId.id + 1, generateUid m⟩ } i j
                 { Id := pid, Name := bp.Name
                   IndexId := some ⟨m.LastIndexId.id + 1, generateUid m⟩
                   RelationTarget := bp.Relation.getD ""
                   Typ := bp.ObType, Flags := bp.Flags })
      | some _, some iu =>
          .ok ({ bp with Id := pid.id, Uid := pid.uid, Index := some ⟨iu.id, iu.uid⟩ },
               setProp m i j { Id := pid, Name := bp.Name, IndexId := some iu
                               RelationTarget := bp.Relation.getD ""
                               Typ := bp.ObType, Flags := bp.Flags }) := by
  subst hpid
  by_cases huid : bp.Uid ≠ 0 <;>
    cases hbi : bp.Index <;> cases hpi : (getPropD m i j).IndexId <;>
      simp_all [mergeModelProperty, hbi, hpi]

end ObxGen

namespace ObxGen

/-! ### C10 — explicit binding uid overwrites the model property uid -/

/-- C10: a binding property with an explicit non-zero uid that resolves to
a model property has the model property's identity overwritten with
`(existing local id, binding uid)`, and the binding reads this rewritten
pair back. -/
theorem c10_property_uid_overwrite (bp : BindingProperty) (i j : Nat) (m : ModelInfo)
    (hi : i < m.Entities.length) (h0 : bp.Uid ≠ 0)
    (hres : getModelProperty bp i m = .ok (j, m)) :
    ∃ bp2 m2, mergeModelProperty bp i j m = .ok (bp2, m2) ∧
      (getPropD m2 i j).Id = ⟨(getPropD m i j).Id.id, bp.Uid⟩ ∧
      bp2.Id = (getPropD m i j).Id.id ∧ bp2.Uid = bp.Uid := by
  have hj : j < (getEntityD m i).Properties.length := by
    unfold getModelProperty at hres
    simp only [h0, if_true, ite_true, ne_eq, not_false_iff] at hres
    rcases hfu : findPropIdxByUid (getEntityD m i) bp.Uid with _ | j1
    · rcases hfn : findPropIdxByName (getEntityD m i) bp.Name with _ | j2
      · simp [hfu, hfn] at hres
      · simp only [hfu, hfn, Except.ok.injEq, Prod.mk.injEq] at hres
        exact hres.1 ▸ findIndexOpt_some_lt _ _ _ hfn
    · simp only [hfu, Except.ok.injEq, Prod.mk.injEq] at hres
      exact hres.1 ▸ findIndexOpt_some_lt _ _ _ hfu
  have hspec := mergeModelProperty_spec bp i j m ⟨(getPropD m i j).Id.id, bp.Uid⟩
    (by rw [if_pos h0])
  cases hbi : bp.Index <;> cases hpi : (getPropD m i j).IndexId <;>
    simp only [hbi, hpi] at hspec <;>
    exact ⟨_, _, hspec, congrArg Property.Id (getPropD_setProp_self _ i j _ hi hj), rfl, rfl⟩

/-- C10 witness: the uid-999 reset on the concrete document
`cexModelProp` — pair `(1, 201)` becomes `(1, 999)` and is read back. -/
theorem c10_property_uid_overwrite_witness :
    getModelProperty cexBindingProp 0 cexModelProp = .ok (0, cexModelProp) ∧
    ∃ bp2 m2, mergeModelProperty cexBindingProp 0 0 cexModelProp = .ok (bp2, m2) ∧
      (getPropD m2 0 0).Id = ⟨(getPropD cexModelProp 0 0).Id.id, cexBindingProp.Uid⟩ ∧
      bp2.Id = (getPropD cexModelProp 0 0).Id.id ∧ bp2.Uid = cexBindingProp.Uid :=
  ⟨rfl, c10_property_uid_overwrite cexBindingProp 0 0 cexModelProp
    (by decide) (by decide) rfl⟩

end ObxGen

namespace ObxGen

/-! ### C6 — index presence reconciliation -/

theorem getPropD_setProp_retire (m : ModelInfo) (u : Nat) (i j : Nat) (p : Property)
    (hi : i < m.Entities.length) (hj : j < (getEntityD m i).Properties.length) :
    getPropD (setProp { m with RetiredIndexUids := m.RetiredIndexUids ++ [u] } i j p) i j = p :=
  getPropD_setProp_self { m with RetiredIndexUids := m.RetiredIndexUids ++ [u] } i j p hi hj

theorem getPropD_setProp_lastIndex (m : ModelInfo) (iu : IdUid) (i j : Nat) (p : Property)
    (hi : i < m.Entities.length) (hj : j < (getEntityD m i).Properties.length) :
    getPropD (setProp { m with LastIndexId := iu } i j p) i j = p :=
  getPropD_setProp_self { m with LastIndexId := iu } i j p hi hj

/-- C6: after a successful property merge, the model property carries an
`indexId` iff the binding requests an index; an existing index is removed
and its uid retired when the request is gone, a fresh index pair
(`lastIndexId.id + 1`, fresh uid) is created when the request is new, and
an existing index pair is reused unchanged when the request persists. -/
theorem c6_index_reconciliation (bp : BindingProperty) (i j : Nat) (m : ModelInfo)
    (hi : i < m.Entities.length) (hj : j < (getEntityD m i).Properties.length) :
    ∃ bp2 m2, mergeModelProperty bp i j m = .ok (bp2, m2) ∧
      ((getPropD m2 i j).IndexId.isSome = true ↔ bp.Index.isSome = true) ∧
      (bp.Index = none → ∀ iu, (getPropD m i j).IndexId = some iu →
        (getPropD m2 i j).IndexId = none ∧
        m2.RetiredIndexUids = m.RetiredIndexUids ++ [iu.uid]) ∧
      (bp.Index.isSome = true → (getPropD m i j).IndexId = none →
        (getPropD m2 i j).IndexId = some ⟨m.LastIndexId.id + 1, generateUid m⟩ ∧
        m2.LastIndexId = ⟨m.LastIndexId.id + 1, generateUid m⟩ ∧
        generateUid m ∉ allUids m) ∧
      (∀ iu, bp.Index.isSome = true → (getPropD m i j).IndexId = some iu →
        (getPropD m2 i j).IndexId = some iu ∧
        m2.RetiredIndexUids = m.RetiredIndexUids ∧ m2.LastIndexId = m.LastIndexId) := by
  have hspec := mergeModelProperty_spec bp i j m _ rfl
  cases hbi : bp.Index with
  | none =>
      cases hpi : (getPropD m i j).IndexId with
      | none =>
          simp only [hbi, hpi] at hspec
          refine ⟨_, _, hspec, ?_, ?_, ?_, ?_⟩
          · rw [getPropD_setProp_self m i j _ hi hj]
            simp
          · simp
          · simp
          · simp
      | some iu =>
          simp only [hbi, hpi] at hspec
          refine ⟨_, _, hspec, ?_, ?_, ?_, ?_⟩
          · rw [getPropD_setProp_retire m iu.uid i j _ hi hj]
            simp
          · intro _ iu2 hiu2
            cases hiu2
            refine ⟨?_, rfl⟩
            rw [getPropD_setProp_retire m iu.uid i j _ hi hj]
          · simp
          · simp
  | some bidx =>
      cases hpi : (getPropD m i j).IndexId with
      | none =>
          simp only [hbi, hpi] at hspec
          refine ⟨_, _, hspec, ?_, ?_, ?_, ?_⟩
          · rw [getPropD_setProp_lastIndex m _ i j _ hi hj]
            simp
          · simp
          · intro _ _
            refine ⟨?_, rfl, generateUid_not_mem m⟩
            rw [getPropD_setProp_lastIndex m _ i j _ hi hj]
          · simp
      | some iu =>
          simp only [hbi, hpi] at hspec
          refine ⟨_, _, hspec, ?_, ?_, ?_, ?_⟩
          · rw [getPropD_setProp_self m i j _ hi hj]
            simp
          · simp
          · simp
          · intro iu2 _ hiu2
            cases hiu2
            refine ⟨?_, rfl, rfl⟩
            rw [getPropD_setProp_self m i j _ hi hj]

end ObxGen

namespace ObxGen

/-- C6 witness: dropping the index of property `PI` of `witModelIdx`
retires the index uid. -/
theorem c6_index_reconciliation_witness :
    ∃ bp2 m2, mergeModelProperty witBpDropIndex 0 0 witModelIdx = .ok (bp2, m2) ∧
      ((getPropD m2 0 0).IndexId.isSome = true ↔ witBpDropIndex.Index.isSome = true) ∧
      (witBpDropIndex.Index = none → ∀ iu, (getPropD witModelIdx 0 0).IndexId = some iu →
        (getPropD m2 0 0).IndexId = none ∧
        m2.RetiredIndexUids = witModelIdx.RetiredIndexUids ++ [iu.uid]) ∧
      (witBpDropIndex.Index.isSome = true → (getPropD witModelIdx 0 0).IndexId = none →
        (getPropD m2 0 0).IndexId =
          some ⟨witModelIdx.LastIndexId.id + 1, generateUid witModelIdx⟩ ∧
        m2.LastIndexId = ⟨witModelIdx.LastIndexId.id + 1, generateUid witModelIdx⟩ ∧
        generateUid witModelIdx ∉ allUids witModelIdx) ∧
      (∀ iu, witBpDropIndex.Index.isSome = true →
        (getPropD witModelIdx 0 0).IndexId = some iu →
        (getPropD m2 0 0).IndexId = some iu ∧
        m2.RetiredIndexUids = witModelIdx.RetiredIndexUids ∧
        m2.LastIndexId = witModelIdx.LastIndexId) :=
  c6_index_reconciliation witBpDropIndex 0 0 witModelIdx (by decide) (by decide)

/-! ### C7 — rename by uid changes only the name -/

/-- C7: a property matched by explicit uid whose binding differs from the
model property only in its name is merged by changing only the name: its
identity pair, its index id, the entity's `lastPropertyId` and all
document-level counters and retired lists are unchanged. -/
theorem c7_rename_only (bp : BindingProperty) (i j : Nat) (m : ModelInfo)
    (hi : i < m.Entities.length) (hj : j < (getEntityD m i).Properties.length)
    (huid : bp.Uid ≠ 0) (hmatch : bp.Uid = (getPropD m i j).Id.uid)
    (htype : bp.ObType = (getPropD m i j).Typ)
    (hflags : bp.Flags = (getPropD m i j).Flags)
    (hrel : bp.Relation.getD "" = (getPropD m i j).RelationTarget)
    (hidx : bp.Index.isSome = (getPropD m i j).IndexId.isSome) :
    ∃ bp2 m2, mergeModelProperty bp i j m = .ok (bp2, m2) ∧
      m2.Entities = m.Entities.set i
        { getEntityD m i with
            Properties := (getEntityD m i).Properties.set j
              { getPropD m i j with Name := bp.Name } } ∧
      m2.LastEntityId = m.LastEntityId ∧ m2.LastIndexId = m.LastIndexId ∧
      m2.LastRelationId = m.LastRelationId ∧
      m2.RetiredIndexUids = m.RetiredIndexUids ∧
      m2.RetiredPropertyUids = m.RetiredPropertyUids ∧
      (getPropD m2 i j).Id = (getPropD m i j).Id ∧
      (getPropD m2 i j).IndexId = (getPropD m i j).IndexId ∧
      (getEntityD m2 i).LastPropertyId = (getEntityD m i).LastPropertyId ∧
      bp2.Id = (getPropD m i j).Id.id ∧ bp2.Uid = bp.Uid := by
  have hspec := mergeModelProperty_spec bp i j m (getPropD m i j).Id
    (by rw [if_pos huid, hmatch])
  rw [htype, hflags, hrel] at hspec
  cases hbi : bp.Index with
  | none =>
      cases hpi : (getPropD m i j).IndexId with
      | some iu =>
          rw [hbi, hpi] at hidx
          simp at hidx
      | none =>
          simp only [hbi, hpi] at hspec
          rw [← hpi] at hspec
          refine ⟨_, _, hspec, rfl, rfl, rfl, rfl, rfl, rfl, ?_, ?_, ?_, rfl, hmatch.symm⟩
          · rw [getPropD_setProp_self m i j _ hi hj]
          · rw [getPropD_setProp_self m i j _ hi hj]
            exact hpi
          · simp only [setProp, updEntity]
            rw [getEntityD_setEntity_self m i _ hi]
  | some bidx =>
      cases hpi : (getPropD m i j).IndexId with
      | none =>
          rw [hbi, hpi] at hidx
          simp at hidx
      | some iu =>
          simp only [hbi, hpi] at hspec
          rw [← hpi] at hspec
          refine ⟨_, _, hspec, rfl, rfl, rfl, rfl, rfl, rfl, ?_, ?_, ?_, rfl, hmatch.symm⟩
          · rw [getPropD_setProp_self m i j _ hi hj]
          · rw [getPropD_setProp_self m i j _ hi hj]
            exact hpi
          · simp only [setProp, updEntity]
            rw [getEntityD_setEntity_self m i _ hi]

/-- C7 witness: renaming property `PI` of `witModelIdx` to `Position` by
its uid `401`. -/
theorem c7_rename_only_witness :
    ∃ bp2 m2, mergeModelProperty witBpRename 0 0 witModelIdx = .ok (bp2, m2) ∧
      m2.Entities = witModelIdx.Entities.set 0
        { getEntityD witModelIdx 0 with
            Properties := (getEntityD witModelIdx 0).Properties.set 0
              { getPropD witModelIdx 0 0 with Name := witBpRename.Name } } ∧
      m2.LastEntityId = witModelIdx.LastEntityId ∧
      m2.LastIndexId = witModelIdx.LastIndexId ∧
      m2.LastRelationId = witModelIdx.LastRelationId ∧
      m2.RetiredIndexUids = witModelIdx.RetiredIndexUids ∧
      m2.RetiredPropertyUids = witModelIdx.RetiredPropertyUids ∧
      (getPropD m2 0 0).Id = (getPropD witModelIdx 0 0).Id ∧
      (getPropD m2 0 0).IndexId = (getPropD witModelIdx 0 0).IndexId ∧
      (getEntityD m2 0).LastPropertyId = (getEntityD witModelIdx 0).LastPropertyId ∧
      bp2.Id = (getPropD witModelIdx 0 0).Id.id ∧ bp2.Uid = witBpRename.Uid :=
  c7_rename_only witBpRename 0 0 witModelIdx (by decide) (by decide) (by decide)
    (by decide) (by decide) (by decide) (by decide) (by decide)

end ObxGen

namespace ObxGen

/-! ### Sequence-evolution and frame infrastructure -/

theorem getD_append_left (l t : List α) (k : Nat) (d : α) (h : k < l.length) :
    (l ++ t).getD k d = l.getD k d := by
  rw [List.getD_eq_getElem?_getD, List.getD_eq_getElem?_getD, List.getElem?_append, if_pos h]

theorem map_set_eq_of_eq (l : List α) (j : Nat) (p : α) (f : α → β) (d : α)
    (h : f p = f (l.getD j d)) : (l.set j p).map f = l.map f := by
  induction l generalizing j with
  | nil => simp
  | cons a as ih =>
      cases j with
      | zero => simpa using h
      | succ k =>
          simp only [List.set, List.map, List.cons.injEq, true_and]
          exact ih k h

theorem seqEvolves_of_eq {P : α → Prop} {l l' : List α} (h : l' = l) : SeqEvolves P l l' :=
  ⟨l', [], by simp, h ▸ List.Sublist.refl l', by simp⟩

theorem seqEvolves_refl {P : α → Prop} (l : List α) : SeqEvolves P l l :=
  seqEvolves_of_eq rfl

theorem seqEvolves_append_one {P : α → Prop} {l l' : List α} (h : SeqEvolves P l l') (x : α)
    (hx : P x) : SeqEvolves P l (l' ++ [x]) := by
  obtain ⟨k, f, hk, hs, hf⟩ := h
  refine ⟨k, f ++ [x], by simp [hk], hs, ?_⟩
  intro a ha
  rcases List.mem_append.mp ha with h1 | h1
  · exact hf a h1
  · rw [List.mem_singleton.mp h1]
    exact hx

theorem seqEvolves_trans {P Q : α → Prop} {a b c : List α} (hQP : ∀ x, Q x → P x)
    (h1 : SeqEvolves P a b) (h2 : SeqEvolves Q b c) :
    SeqEvolves P a c := by
  obtain ⟨k1, f1, rfl, hs1, hf1⟩ := h1
  obtain ⟨k2, f2, rfl, hs2, hf2⟩ := h2
  obtain ⟨a2, b2, rfl, ha2, hb2⟩ := List.sublist_append_iff.mp hs2
  refine ⟨a2, b2 ++ f2, by simp, ha2.trans hs1, ?_⟩
  intro x hx
  rcases List.mem_append.mp hx with h1 | h1
  · exact hf1 x (hb2.subset h1)
  · exact hQP x (hf2 x h1)

theorem seqEvolves_map_filter {P : β → Prop} (ps : List α) (q : α → Bool) (f : α → β) :
    SeqEvolves P (ps.map f) ((ps.filter q).map f) :=
  ⟨(ps.filter q).map f, [], by simp, (List.filter_sublist ps).map f, by simp⟩

theorem entityFrame_refl (m : ModelInfo) : EntityFrame m m :=
  ⟨rfl, fun _ => rfl, fun _ => le_refl _, le_refl _,
   fun _ => seqEvolves_refl _, fun _ => seqEvolves_refl _⟩

theorem entityFrame_trans {a b c : ModelInfo} (h1 : EntityFrame a b) (h2 : EntityFrame b c) :
    EntityFrame a c := by
  obtain ⟨hl1, hid1, hlp1, hlr1, hp1, hr1⟩ := h1
  obtain ⟨hl2, hid2, hlp2, hlr2, hp2, hr2⟩ := h2
  exact ⟨hl2.trans hl1, fun k => (hid2 k).trans (hid1 k),
    fun k => (hlp1 k).trans (hlp2 k), hlr1.trans hlr2,
    fun k => seqEvolves_trans (fun x hx => lt_of_le_of_lt (hlp1 k) hx) (hp1 k) (hp2 k),
    fun k => seqEvolves_trans (fun x hx => lt_of_le_of_lt hlr1 hx) (hr1 k) (hr2 k)⟩

theorem entityFrame_of_entities_eq {m m' : ModelInfo} (h : m'.Entities = m.Entities)
    (hlr : m.LastRelationId.id ≤ m'.LastRelationId.id) :
    EntityFrame m m' := by
  have hg : ∀ k, getEntityD m' k = getEntityD m k := by
    intro k
    unfold getEntityD
    rw [h]
  exact ⟨by rw [h], fun k => by rw [hg k], fun k => by rw [hg k], hlr,
    fun k => by rw [hg k]; exact seqEvolves_refl _,
    fun k => by rw [hg k]; exact seqEvolves_refl _⟩

theorem entityFrame_updEntity (m : ModelInfo) (i : Nat) (f : Entity → Entity)
    (hId : (f (getEntityD m i)).Id = (getEntityD m i).Id)
    (hLP : (getEntityD m i).LastPropertyId.id ≤ (f (getEntityD m i)).LastPropertyId.id)
    (hProps : SeqEvolves (fun pid => (getEntityD m i).LastPropertyId.id < pid)
      (propIds (getEntityD m i).Properties)
      (propIds (f (getEntityD m i)).Properties))
    (hRels : SeqEvolves (fun pr : IdUid => m.LastRelationId.id < pr.id)
      (relPairs (getEntityD m i).Relations)
      (relPairs (f (getEntityD m i)).Relations)) :
    EntityFrame m (updEntity m i f) := by
  by_cases hi : i < m.Entities.length
  · have hlen : (updEntity m i f).Entities.length = m.Entities.length := by
      simp [updEntity, setEntity]
    have hat : getEntityD (updEntity m i f) i = f (getEntityD m i) :=
      getEntityD_setEntity_self m i _ hi
    have hne : ∀ k, k ≠ i → getEntityD (updEntity m i f) k = getEntityD m k := by
      intro k hk
      exact getEntityD_setEntity_ne m i k _ (fun hik => hk hik.symm)
    refine ⟨hlen, ?_, ?_, le_refl _, ?_, ?_⟩ <;> intro k <;> by_cases hk : k = i
    · rw [hk, hat, hId]
    · rw [hne k hk]
    · rw [hk, hat]
      exact hLP
    · rw [hne k hk]
    · rw [hk, hat]
      exact hProps
    · rw [hne k hk]
      exact seqEvolves_refl _
    · rw [hk, hat]
      exact hRels
    · rw [hne k hk]
      exact seqEvolves_refl _
  · have heq : updEntity m i f = m := by
      unfold updEntity setEntity
      rw [List.set_eq_of_length_le (Nat.le_of_not_lt hi)]
    rw [heq]
    exact entityFrame_refl m

theorem getPropD_congr {m m' : ModelInfo} (h : m'.Entities = m.Entities) (i j : Nat) :
    getPropD m' i j = getPropD m i j := by
  unfold getPropD getEntityD
  rw [h]

theorem getRelD_congr {m m' : ModelInfo} (h : m'.Entities = m.Entities) (i j : Nat) :
    getRelD m' i j = getRelD m i j := by
  unfold getRelD getEntityD
  rw [h]

theorem entityFrame_setProp (m : ModelInfo) (i j : Nat) (p : Property)
    (hpid : p.Id.id = (getPropD m i j).Id.id) :
    EntityFrame m (setProp m i j p) := by
  refine entityFrame_updEntity m i _ rfl (le_refl _) ?_ (seqEvolves_refl _)
  refine seqEvolves_of_eq ?_
  exact map_set_eq_of_eq _ j p _ default hpid

theorem entityFrame_setRel (m : ModelInfo) (i j : Nat) (r : StandaloneRelation)
    (hrid : r.Id = (getRelD m i j).Id) :
    EntityFrame m (setRel m i j r) := by
  refine entityFrame_updEntity m i _ rfl (le_refl _) (seqEvolves_refl _) ?_
  refine seqEvolves_of_eq ?_
  exact map_set_eq_of_eq _ j r _ default hrid

end ObxGen

namespace ObxGen

theorem entityFrame_createProperty (i : Nat) (m : ModelInfo) :
    EntityFrame m (createProperty i m).2 := by
  refine entityFrame_updEntity m i _ rfl ?_ ?_ (seqEvolves_refl _)
  · simp only [Nat.lt_succ_self, if_pos]
    exact Nat.le_succ _
  · have hps : propIds ((getEntityD m i).Properties ++
        [{ Id := ⟨(getEntityD m i).LastPropertyId.id + 1, generateUid m⟩, Name := ""
           IndexId := none, RelationTarget := "", Typ := 0, Flags := 0 }]) =
        propIds (getEntityD m i).Properties ++ [(getEntityD m i).LastPropertyId.id + 1] := by
      simp [propIds]
    rw [hps]
    exact seqEvolves_append_one (seqEvolves_refl _) _ (Nat.lt_succ_self _)

theorem entityFrame_createRelation (i : Nat) (m : ModelInfo) :
    EntityFrame m (createRelation i m).2 := by
  refine entityFrame_trans (b := updEntity m i (fun e =>
      { e with Relations := e.Relations ++
          [{ Id := ⟨m.LastRelationId.id + 1, generateUid m⟩, Name := "", TargetId := ⟨0, 0⟩ }] }))
    ?_ (entityFrame_of_entities_eq rfl (Nat.le_succ _))
  refine entityFrame_updEntity m i _ rfl (le_refl _) (seqEvolves_refl _) ?_
  have hrs : relPairs ((getEntityD m i).Relations ++
      [{ Id := ⟨m.LastRelationId.id + 1, generateUid m⟩, Name := "", TargetId := ⟨0, 0⟩ }]) =
      relPairs (getEntityD m i).Relations ++ [⟨m.LastRelationId.id + 1, generateUid m⟩] := by
    simp [relPairs]
  rw [hrs]
  exact seqEvolves_append_one (seqEvolves_refl _) _ (Nat.lt_succ_self _)

theorem getModelProperty_frame (bp : BindingProperty) (i : Nat) (m : ModelInfo)
    (j : Nat) (m1 : ModelInfo) (h : getModelProperty bp i m = .ok (j, m1)) :
    EntityFrame m m1 := by
  unfold getModelProperty at h
  split at h
  · split at h
    · simp only [Except.ok.injEq, Prod.mk.injEq] at h
      rw [← h.2]
      exact entityFrame_refl m
    · split at h
      · simp only [Except.ok.injEq, Prod.mk.injEq] at h
        rw [← h.2]
        exact entityFrame_refl m
      · cases h
  · split at h
    · split at h
      · cases h
      · simp only [Except.ok.injEq, Prod.mk.injEq] at h
        rw [← h.2]
        exact entityFrame_refl m
    · split at h
      · cases h
      · simp only [Except.ok.injEq] at h
        have h2 : m1 = (createProperty i m).2 := by rw [h]
        rw [h2]
        exact entityFrame_createProperty i m

theorem mergeModelProperty_frame (bp : BindingProperty) (i j : Nat) (m : ModelInfo)
    (bp2 : BindingProperty) (m2 : ModelInfo)
    (h : mergeModelProperty bp i j m = .ok (bp2, m2)) : EntityFrame m m2 := by
  have hspec := mergeModelProperty_spec bp i j m _ rfl
  have hid : ∀ mx : ModelInfo, mx.Entities = m.Entities →
      m.LastRelationId.id ≤ mx.LastRelationId.id →
      ∀ p4 : Property, p4.Id.id = (getPropD m i j).Id.id →
      EntityFrame m (setProp mx i j p4) := by
    intro mx hmx hmr p4 hp4
    refine entityFrame_trans (entityFrame_of_entities_eq hmx hmr)
      (entityFrame_setProp mx i j p4 ?_)
    rw [getPropD_congr hmx, hp4]
  cases hbi : bp.Index <;> cases hpi : (getPropD m i j).IndexId <;>
    simp only [hbi, hpi] at hspec <;> rw [hspec] at h <;>
    simp only [Except.ok.injEq, Prod.mk.injEq] at h <;> rw [← h.2]
  · exact hid m rfl (le_refl _) _ (mergedId_id bp _)
  · exact hid _ rfl (le_refl _) _ (mergedId_id bp _)
  · exact hid _ rfl (le_refl _) _ (mergedId_id bp _)
  · exact hid m rfl (le_refl _) _ (mergedId_id bp _)

theorem mergeProperties_frame (i : Nat) (bps : List BindingProperty) (m : ModelInfo)
    (res : List BindingProperty × ModelInfo) (h : mergeProperties i bps m = .ok res) :
    EntityFrame m res.2 := by
  induction bps generalizing m res with
  | nil =>
      unfold mergeProperties at h
      simp only [Except.ok.injEq] at h
      rw [← h]
      exact entityFrame_refl m
  | cons bp rest ih =>
      unfold mergeProperties at h
      simp only [bind, Except.bind] at h
      rcases hg : getModelProperty bp i m with e | ⟨j, m1⟩ <;> rw [hg] at h
      · cases h
      · dsimp only at h
        rcases hm : mergeModelProperty bp i j m1 with e | ⟨bp2, m2⟩ <;> rw [hm] at h
        · cases h
        · dsimp only at h
          rcases hr : mergeProperties i rest m2 with e | res3 <;> rw [hr] at h
          · cases h
          · simp only [Except.ok.injEq] at h
            rw [← h]
            exact entityFrame_trans (getModelProperty_frame bp i m j m1 hg)
              (entityFrame_trans (mergeModelProperty_frame bp i j m1 bp2 m2 hm)
                (ih m2 res3 hr))

end ObxGen

namespace ObxGen

theorem removeMissingProperties_frame (be : BindingEntity) (i : Nat) (m : ModelInfo) :
    EntityFrame m (removeMissingProperties be i m) := by
  unfold removeMissingProperties
  dsimp only
  refine entityFrame_trans (b := updEntity m i (fun e =>
      { e with Properties := e.Properties.filter (fun p => bindingPropertyExists p be) }))
    ?_ (entityFrame_of_entities_eq rfl (le_refl _))
  refine entityFrame_updEntity m i _ rfl (le_refl _) ?_ (seqEvolves_refl _)
  exact seqEvolves_map_filter _ _ _

theorem removeMissingRelations_frame (be : BindingEntity) (i : Nat) (m : ModelInfo) :
    EntityFrame m (removeMissingRelations be i m) := by
  unfold removeMissingRelations
  dsimp only
  refine entityFrame_trans (b := updEntity m i (fun e =>
      { e with Relations := e.Relations.filter (fun r => bindingRelationExists r be) }))
    ?_ (entityFrame_of_entities_eq rfl (le_refl _))
  refine entityFrame_updEntity m i _ rfl (le_refl _) (seqEvolves_refl _) ?_
  exact seqEvolves_map_filter _ _ _

theorem getModelRelation_frame (br : BindingRelation) (i : Nat) (m : ModelInfo)
    (j : Nat) (m1 : ModelInfo) (h : getModelRelation br i m = .ok (j, m1)) :
    EntityFrame m m1 := by
  unfold getModelRelation at h
  split at h
  · split at h
    · simp only [Except.ok.injEq, Prod.mk.injEq] at h
      rw [← h.2]
      exact entityFrame_refl m
    · cases h
  · split at h
    · split at h
      · cases h
      · simp only [Except.ok.injEq, Prod.mk.injEq] at h
        rw [← h.2]
        exact entityFrame_refl m
    · split at h
      · cases h
      · simp only [Except.ok.injEq] at h
        have h2 : m1 = (createRelation i m).2 := by rw [h]
        rw [h2]
        exact entityFrame_createRelation i m

theorem getRelD_setRel_self (m : ModelInfo) (i j : Nat) (r : StandaloneRelation)
    (hi : i < m.Entities.length) (hj : j < (getEntityD m i).Relations.length) :
    getRelD (setRel m i j r) i j = r := by
  unfold getRelD setRel updEntity
  rw [getEntityD_setEntity_self _ _ _ hi]
  exact getD_set_self _ _ _ _ hj

theorem getRelD_setRel_Id (m : ModelInfo) (i j : Nat) (r' : StandaloneRelation)
    (h : r'.Id = (getRelD m i j).Id) :
    (getRelD (setRel m i j r') i j).Id = (getRelD m i j).Id := by
  by_cases hi : i < m.Entities.length
  · by_cases hj : j < (getEntityD m i).Relations.length
    · rw [getRelD_setRel_self m i j r' hi hj, h]
    · have hset : (getEntityD m i).Relations.set j r' = (getEntityD m i).Relations :=
        List.set_eq_of_length_le (Nat.le_of_not_lt hj)
      unfold getRelD setRel updEntity
      rw [getEntityD_setEntity_self _ _ _ hi]
      simp [hset]
  · have hm : setRel m i j r' = m := by
      unfold setRel updEntity setEntity
      rw [List.set_eq_of_length_le (Nat.le_of_not_lt hi)]
    rw [hm]

theorem mergeModelRelation_frame (br : BindingRelation) (i j : Nat) (m : ModelInfo)
    (br2 : BindingRelation) (m2 : ModelInfo)
    (h : mergeModelRelation br i j m = .ok (br2, m2)) : EntityFrame m m2 := by
  unfold mergeModelRelation at h
  dsimp only at h
  split at h
  · cases h
  · simp only [Except.ok.injEq, Prod.mk.injEq] at h
    rw [← h.2]
    refine entityFrame_trans
      (entityFrame_setRel m i j { getRelD m i j with Name := br.Name } rfl)
      (entityFrame_setRel _ i j _ ?_)
    exact (getRelD_setRel_Id m i j { getRelD m i j with Name := br.Name } rfl).symm

theorem mergeRelations_frame (i : Nat) (brs : List BindingRelation) (m : ModelInfo)
    (res : List BindingRelation × ModelInfo) (h : mergeRelations i brs m = .ok res) :
    EntityFrame m res.2 := by
  induction brs generalizing m res with
  | nil =>
      unfold mergeRelations at h
      simp only [Except.ok.injEq] at h
      rw [← h]
      exact entityFrame_refl m
  | cons br rest ih =>
      unfold mergeRelations at h
      simp only [bind, Except.bind] at h
      rcases hg : getModelRelation br i m with e | ⟨j, m1⟩ <;> rw [hg] at h
      · cases h
      · dsimp only at h
        rcases hm : mergeModelRelation br i j m1 with e | ⟨br2, m2⟩ <;> rw [hm] at h
        · cases h
        · dsimp only at h
          rcases hr : mergeRelations i rest m2 with e | res3 <;> rw [hr] at h
          · cases h
          · simp only [Except.ok.injEq] at h
            rw [← h]
            exact entityFrame_trans (getModelRelation_frame br i m j m1 hg)
              (entityFrame_trans (mergeModelRelation_frame br i j m1 br2 m2 hm)
                (ih m2 res3 hr))

theorem mergeModelEntity_frame (be : BindingEntity) (i : Nat) (m : ModelInfo)
    (be2 : BindingEntity) (m2 : ModelInfo)
    (h : mergeModelEntity be i m = .ok (be2, m2)) : EntityFrame m m2 := by
  unfold mergeModelEntity at h
  simp only [bind, Except.bind] at h
  rcases hg : mergeProperties i be.Properties
      (updEntity m i (fun e => { e with Name := be.Name })) with e | ⟨bps, mA⟩ <;>
    rw [hg] at h
  · cases h
  · dsimp only at h
    rcases hr : mergeRelations i be.Relations (removeMissingProperties be i mA) with
      e | ⟨brs, mB⟩ <;> rw [hr] at h
    · cases h
    · dsimp only at h
      simp only [Except.ok.injEq, Prod.mk.injEq] at h
      rw [← h.2]
      refine entityFrame_trans
        (entityFrame_updEntity m i _ rfl (le_refl _) (seqEvolves_refl _) (seqEvolves_refl _))
        (entityFrame_trans (mergeProperties_frame i be.Properties _ _ hg)
          (entityFrame_trans (removeMissingProperties_frame be i mA)
            (entityFrame_trans (mergeRelations_frame i be.Relations _ _ hr)
              (removeMissingRelations_frame be i mB))))

theorem mergeEntities_frame (pairs : List (BindingEntity × Nat)) (m : ModelInfo)
    (res : List BindingEntity × ModelInfo) (h : mergeEntities pairs m = .ok res) :
    EntityFrame m res.2 := by
  induction pairs generalizing m res with
  | nil =>
      unfold mergeEntities at h
      simp only [Except.ok.injEq] at h
      rw [← h]
      exact entityFrame_refl m
  | cons p rest ih =>
      unfold mergeEntities at h
      simp only [bind, Except.bind] at h
      rcases hm : mergeModelEntity p.1 p.2 m with e | ⟨be2, m1⟩ <;> rw [hm] at h
      · cases h
      · dsimp only at h
        rcases hr : mergeEntities rest m1 with e | res2 <;> rw [hr] at h
        · cases h
        · simp only [Except.ok.injEq] at h
          rw [← h]
          exact entityFrame_trans (mergeModelEntity_frame p.1 p.2 m be2 m1 hm)
            (ih m1 res2 hr)

end ObxGen

namespace ObxGen

theorem listExtends_refl (l : List α) : ListExtends l l :=
  ⟨[], by simp⟩

theorem listExtends_trans {a b c : List α} (h1 : ListExtends a b) (h2 : ListExtends b c) :
    ListExtends a c := by
  obtain ⟨t1, rfl⟩ := h1
  obtain ⟨t2, rfl⟩ := h2
  exact ⟨t1 ++ t2, by simp⟩

theorem getModelEntity_extends (be : BindingEntity) (m : ModelInfo)
    (i1 : Nat) (m1 : ModelInfo) (h : getModelEntity be m = .ok (i1, m1)) :
    ListExtends m.Entities m1.Entities := by
  unfold getModelEntity at h
  split at h
  · split at h
    · simp only [Except.ok.injEq, Prod.mk.injEq] at h
      rw [← h.2]
      exact listExtends_refl _
    · cases h
  · split at h
    · split at h
      · cases h
      · simp only [Except.ok.injEq, Prod.mk.injEq] at h
        rw [← h.2]
        exact listExtends_refl _
    · split at h
      · cases h
      · simp only [Except.ok.injEq] at h
        have h2 : m1 = (createEntity be.Name m).2 := by rw [h]
        rw [h2]
        exact ⟨_, rfl⟩

theorem resolveEntities_extends (bes : List BindingEntity) (m : ModelInfo)
    (res : List Nat × ModelInfo) (h : resolveEntities bes m = .ok res) :
    ListExtends m.Entities res.2.Entities := by
  induction bes generalizing m res with
  | nil =>
      unfold resolveEntities at h
      simp only [Except.ok.injEq] at h
      rw [← h]
      exact listExtends_refl _
  | cons be rest ih =>
      unfold resolveEntities at h
      simp only [bind, Except.bind] at h
      rcases hg : getModelEntity be m with e | ⟨i1, m1⟩ <;> rw [hg] at h
      · cases h
      · dsimp only at h
        rcases hr : resolveEntities rest m1 with e | res2 <;> rw [hr] at h
        · cases h
        · simp only [Except.ok.injEq] at h
          rw [← h]
          exact listExtends_trans (getModelEntity_extends be m i1 m1 hg) (ih m1 res2 hr)

theorem getEntityD_of_extends {m m' : ModelInfo}
    (h : ListExtends m.Entities m'.Entities) (k : Nat) (hk : k < m.Entities.length) :
    getEntityD m' k = getEntityD m k := by
  obtain ⟨t, ht⟩ := h
  unfold getEntityD
  rw [ht, getD_append_left _ _ _ _ hk]

theorem getModelEntity_lastRel (be : BindingEntity) (m : ModelInfo)
    (i1 : Nat) (m1 : ModelInfo) (h : getModelEntity be m = .ok (i1, m1)) :
    m1.LastRelationId = m.LastRelationId := by
  unfold getModelEntity at h
  split at h
  · split at h
    · simp only [Except.ok.injEq, Prod.mk.injEq] at h
      rw [← h.2]
    · cases h
  · split at h
    · split at h
      · cases h
      · simp only [Except.ok.injEq, Prod.mk.injEq] at h
        rw [← h.2]
    · split at h
      · cases h
      · simp only [Except.ok.injEq] at h
        have h2 : m1 = (createEntity be.Name m).2 := by rw [h]
        rw [h2]
        rfl

theorem resolveEntities_lastRel (bes : List BindingEntity) (m : ModelInfo)
    (res : List Nat × ModelInfo) (h : resolveEntities bes m = .ok res) :
    res.2.LastRelationId = m.LastRelationId := by
  induction bes generalizing m res with
  | nil =>
      unfold resolveEntities at h
      simp only [Except.ok.injEq] at h
      rw [← h]
  | cons be rest ih =>
      unfold resolveEntities at h
      simp only [bind, Except.bind] at h
      rcases hg : getModelEntity be m with e | ⟨i1, m1⟩ <;> rw [hg] at h
      · cases h
      · dsimp only at h
        rcases hr : resolveEntities rest m1 with e | res2 <;> rw [hr] at h
        · cases h
        · simp only [Except.ok.injEq] at h
          rw [← h]
          exact (ih m1 res2 hr).trans (getModelEntity_lastRel be m i1 m1 hg)

theorem mergeBindingWithModelInfo_evolves (b : Binding) (m : ModelInfo)
    (b2 : Binding) (m2 : ModelInfo)
    (h : mergeBindingWithModelInfo b m = .ok (b2, m2)) : DocEvolves m m2 := by
  unfold mergeBindingWithModelInfo at h
  simp only [bind, Except.bind] at h
  rcases hres : resolveEntities b.Entities m with e | ⟨idxs, mA⟩ <;> rw [hres] at h
  · cases h
  · dsimp only at h
    rcases hmerge : mergeEntities (b.Entities.zip idxs) mA with e | ⟨bes, mB⟩ <;>
      rw [hmerge] at h
    · cases h
    · dsimp only at h
      simp only [Except.ok.injEq, Prod.mk.injEq] at h
      rw [← h.2]
      have hx := resolveEntities_extends b.Entities m (idxs, mA) hres
      have hxr := resolveEntities_lastRel b.Entities m (idxs, mA) hres
      have hf := mergeEntities_frame (b.Entities.zip idxs) mA (bes, mB) hmerge
      obtain ⟨hl, hid, hlp, hlr, hp, hr⟩ := hf
      obtain ⟨t, ht⟩ := hx
      refine ⟨?_, ?_, ?_⟩
      · show m.Entities.length ≤ mB.Entities.length
        rw [hl, ht]
        simp
      · show m.LastRelationId.id ≤ mB.LastRelationId.id
        rw [hxr] at hlr
        exact hlr
      · intro i hi
        have hAi : getEntityD mA i = getEntityD m i := getEntityD_of_extends ⟨t, ht⟩ i hi
        refine ⟨?_, ?_, ?_, ?_⟩
        · show (getEntityD mB i).Id = (getEntityD m i).Id
          rw [hid i, hAi]
        · show (getEntityD m i).LastPropertyId.id ≤ (getEntityD mB i).LastPropertyId.id
          have := hlp i
          rw [hAi] at this
          exact this
        · show SeqEvolves (fun pid => (getEntityD m i).LastPropertyId.id < pid)
            (propIds (getEntityD m i).Properties) (propIds (getEntityD mB i).Properties)
          have := hp i
          rw [hAi] at this
          exact this
        · show SeqEvolves (fun pr : IdUid => m.LastRelationId.id < pr.id)
            (relPairs (getEntityD m i).Relations) (relPairs (getEntityD mB i).Relations)
          have := hr i
          rw [hAi, hxr] at this
          exact this

end ObxGen

namespace ObxGen

/-! ### C1 — repeated merge and identity stability -/

/-- C1 (amended): a second merge with the same unchanged binding need not
succeed, and even a successful second merge may rewrite a surviving
property's uid; but both the first merge and — whenever it succeeds — the
second leave every pre-existing entity's identity pair unchanged, never
decrease an entity's `lastPropertyId` or the document's `lastRelationId`,
and turn every entity's property local-id sequence and relation
identity-pair sequence into a surviving subsequence of the old one
followed by strictly fresh entries — property local ids beyond the
entity's previous `lastPropertyId`, relation ids beyond the document's
previous `lastRelationId` (`DocEvolves`). -/
theorem c1_repeated_merge_identities (b : Binding) (m m1 m2 : ModelInfo)
    (b1 b2 : Binding)
    (h1 : mergeBindingWithModelInfo b m = .ok (b1, m1))
    (h2 : mergeBindingWithModelInfo b m1 = .ok (b2, m2)) :
    DocEvolves m m1 ∧ DocEvolves m1 m2 :=
  ⟨mergeBindingWithModelInfo_evolves b m b1 m1 h1,
   mergeBindingWithModelInfo_evolves b m1 b2 m2 h2⟩

/-- C1 witness: two successive successful merges of `witBindingSimple`,
with both evolution facts. -/
theorem c1_repeated_merge_identities_witness :
    mergeBindingWithModelInfo witBindingSimple cexModel = .ok witMergeOnce ∧
    mergeBindingWithModelInfo witBindingSimple witMergeOnce.2 = .ok witMergeTwice ∧
    (DocEvolves cexModel witMergeOnce.2 ∧ DocEvolves witMergeOnce.2 witMergeTwice.2) :=
  ⟨rfl, rfl,
   c1_repeated_merge_identities witBindingSimple cexModel witMergeOnce.2 witMergeTwice.2
     witMergeOnce.1 witMergeTwice.1 rfl rfl⟩

/-- C1 counterexample, two scenarios.  First: merging `cexBinding` into
`cexModel` succeeds, but running the very same merge a second time on the
result fails — the standalone relation targets entity name `X`, which the
first merge renamed to `Y` — so the second merge need not succeed.
Second: merging `cex2Binding` into `cex2Model` succeeds twice, yet the
property of the first entity — surviving in place with the same name and
the same local id — has its uid rewritten by the second merge (the first
merge renames entity `W` to `X`, so the second merge re-resolves the first
binding entity to it by name and its explicit property uid `900` lands on
the property via the name fallback): identities of surviving properties
are not stable across a successful repeated merge. -/
theorem c1_counterexample :
    (mergeBindingWithModelInfo cexBinding cexModel = .ok (cexBindingAfter, cexModelAfter) ∧
     mergeBindingWithModelInfo cexBinding cexModelAfter =
       .error (.entityNameNotFound "X")) ∧
    (mergeBindingWithModelInfo cex2Binding cex2Model = .ok cex2Once ∧
     mergeBindingWithModelInfo cex2Binding cex2Once.2 = .ok cex2Twice ∧
     (getPropD cex2Once.2 0 0).Name = "N" ∧
     (getPropD cex2Twice.2 0 0).Name = "N" ∧
     (getPropD cex2Once.2 0 0).Id.id = (getPropD cex2Twice.2 0 0).Id.id ∧
     (getPropD cex2Once.2 0 0).Id ≠ (getPropD cex2Twice.2 0 0).Id) :=
  ⟨⟨rfl, rfl⟩, rfl, rfl, rfl, rfl, rfl, by decide⟩

/-! ### C5 — property removal, retirement, counter monotonicity -/

theorem retiredPropertyUid_mem_allUids (m : ModelInfo) (u : Nat)
    (h : u ∈ m.RetiredPropertyUids) : u ∈ allUids m := by
  unfold allUids
  simp [List.mem_cons, List.mem_append, h]

/-- C5: a model property with no same-named binding property is removed by
the removal phase and its uid is retired into `retiredPropertyUids`, while
same-named properties survive and the `lastPropertyId` counter is
untouched; across a whole entity merge the counter's local id never
decreases; and a freshly created property draws `lastPropertyId.id + 1`
with a fresh uid — never a retired uid, so a re-added name never receives
the retired pair. -/
theorem c5_property_removal_retirement :
    (∀ (be : BindingEntity) (i : Nat) (m : ModelInfo), i < m.Entities.length →
      (∀ p ∈ (getEntityD m i).Properties,
        (bindingPropertyExists p be = false →
          p ∉ (getEntityD (removeMissingProperties be i m) i).Properties ∧
          p.Id.uid ∈ (removeMissingProperties be i m).RetiredPropertyUids) ∧
        (bindingPropertyExists p be = true →
          p ∈ (getEntityD (removeMissingProperties be i m) i).Properties)) ∧
      (getEntityD (removeMissingProperties be i m) i).LastPropertyId =
        (getEntityD m i).LastPropertyId) ∧
    (∀ (be : BindingEntity) (i : Nat) (m : ModelInfo) (be2 : BindingEntity) (m2 : ModelInfo),
      mergeModelEntity be i m = .ok (be2, m2) →
      ∀ k, (getEntityD m k).LastPropertyId.id ≤ (getEntityD m2 k).LastPropertyId.id) ∧
    (∀ (i : Nat) (m : ModelInfo), i < m.Entities.length →
      (getEntityD (createProperty i m).2 i).Properties =
        (getEntityD m i).Properties ++
          [{ Id := ⟨(getEntityD m i).LastPropertyId.id + 1, generateUid m⟩, Name := ""
             IndexId := none, RelationTarget := "", Typ := 0, Flags := 0 }] ∧
      (getEntityD (createProperty i m).2 i).LastPropertyId =
        ⟨(getEntityD m i).LastPropertyId.id + 1, generateUid m⟩ ∧
      generateUid m ∉ allUids m ∧ generateUid m ∉ m.RetiredPropertyUids) := by
  refine ⟨?_, ?_, ?_⟩
  · intro be i m hi
    have hget : getEntityD (removeMissingProperties be i m) i =
        { getEntityD m i with
            Properties := (getEntityD m i).Properties.filter
              (fun p => bindingPropertyExists p be) } := by
      unfold removeMissingProperties
      dsimp only
      exact getD_set_self m.Entities i _ default hi
    constructor
    · intro p hp
      constructor
      · intro hno
        constructor
        · rw [hget]
          intro hmem
          have := (List.mem_filter.mp hmem).2
          rw [hno] at this
          cases this
        · show p.Id.uid ∈ (removeMissingProperties be i m).RetiredPropertyUids
          unfold removeMissingProperties
          dsimp only
          refine List.mem_append_right _ ?_
          refine List.mem_map_of_mem _ ?_
          rw [List.mem_filter]
          exact ⟨hp, by simp [hno]⟩
      · intro hyes
        rw [hget]
        exact List.mem_filter.mpr ⟨hp, hyes⟩
    · rw [hget]
  · intro be i m be2 m2 h k
    exact (mergeModelEntity_frame be i m be2 m2 h).2.2.1 k
  · intro i m hi
    have hget : getEntityD (createProperty i m).2 i =
        { getEntityD m i with
            Properties := (getEntityD m i).Properties ++
              [{ Id := ⟨(getEntityD m i).LastPropertyId.id + 1, generateUid m⟩, Name := ""
                 IndexId := none, RelationTarget := "", Typ := 0, Flags := 0 }]
            LastPropertyId :=
              if (getEntityD m i).LastPropertyId.id < (getEntityD m i).LastPropertyId.id + 1
              then ⟨(getEntityD m i).LastPropertyId.id + 1, generateUid m⟩
              else (getEntityD m i).LastPropertyId } := by
      unfold createProperty
      dsimp only
      exact getEntityD_setEntity_self m i _ hi
    rw [hget]
    refine ⟨rfl, by simp [Nat.lt_succ_self], generateUid_not_mem m, ?_⟩
    intro hmem
    exact generateUid_not_mem m (retiredPropertyUid_mem_allUids m _ hmem)

/-- C5 witness: merging a binding that drops property `PP` retires uid
`402`, keeps `lastPropertyId` non-decreasing, and a fresh property pair
never reuses a retired uid. -/
theorem c5_property_removal_retirement_witness :
    (bindingPropertyExists witPropPP witBindingEntityPI = false ∧
     witPropPP ∉ (getEntityD (removeMissingProperties witBindingEntityPI 0 witModelIdx) 0).Properties ∧
     witPropPP.Id.uid ∈ (removeMissingProperties witBindingEntityPI 0 witModelIdx).RetiredPropertyUids) ∧
    (mergeModelEntity witBindingEntityPI 0 witModelIdx =
       .ok (witEntityMergeRes.1, witEntityMergeRes.2) ∧
     (getEntityD witModelIdx 0).LastPropertyId.id ≤
       (getEntityD witEntityMergeRes.2 0).LastPropertyId.id) ∧
    ((getEntityD (createProperty 0 witModelIdx).2 0).LastPropertyId =
       ⟨(getEntityD witModelIdx 0).LastPropertyId.id + 1, generateUid witModelIdx⟩ ∧
     generateUid witModelIdx ∉ allUids witModelIdx ∧
     generateUid witModelIdx ∉ witModelIdx.RetiredPropertyUids) := by
  have h := c5_property_removal_retirement
  have hrem := (h.1 witBindingEntityPI 0 witModelIdx (by decide)).1 witPropPP (by decide)
  have hmono := h.2.1 witBindingEntityPI 0 witModelIdx witEntityMergeRes.1 witEntityMergeRes.2 rfl 0
  have hfresh := h.2.2 0 witModelIdx (by decide)
  exact ⟨⟨rfl, (hrem.1 rfl).1, (hrem.1 rfl).2⟩, ⟨rfl, hmono⟩,
    hfresh.2.1, hfresh.2.2.1, hfresh.2.2.2⟩

end ObxGen

namespace ObxGen

/-! ### C8 infrastructure — name preservation and error shapes -/

theorem namesFrame_refl (m : ModelInfo) : NamesFrame m m :=
  ⟨rfl, fun _ => rfl⟩

theorem namesFrame_trans {a b c : ModelInfo} (h1 : NamesFrame a b) (h2 : NamesFrame b c) :
    NamesFrame a c :=
  ⟨h2.1.trans h1.1, fun k => (h2.2 k).trans (h1.2 k)⟩

theorem namesFrame_of_entities_eq {m m' : ModelInfo} (h : m'.Entities = m.Entities) :
    NamesFrame m m' := by
  have hg : ∀ k, getEntityD m' k = getEntityD m k := by
    intro k
    unfold getEntityD
    rw [h]
  exact ⟨by rw [h], fun k => by rw [hg k]⟩

theorem namesFrame_updEntity (m : ModelInfo) (i : Nat) (f : Entity → Entity)
    (hN : (f (getEntityD m i)).Name = (getEntityD m i).Name) :
    NamesFrame m (updEntity m i f) := by
  by_cases hi : i < m.Entities.length
  · refine ⟨by simp [updEntity, setEntity], ?_⟩
    intro k
    have hat : getEntityD (updEntity m i f) i = f (getEntityD m i) :=
      getEntityD_setEntity_self m i _ hi
    have hne : ∀ k2, k2 ≠ i → getEntityD (updEntity m i f) k2 = getEntityD m k2 :=
      fun k2 hk2 => getEntityD_setEntity_ne m i k2 _ (fun hik => hk2 hik.symm)
    by_cases hk : k = i
    · rw [hk, hat, hN]
    · rw [hne k hk]
  · have heq : updEntity m i f = m := by
      unfold updEntity setEntity
      rw [List.set_eq_of_length_le (Nat.le_of_not_lt hi)]
    rw [heq]
    exact namesFrame_refl m

theorem namesFrame_setProp (m : ModelInfo) (i j : Nat) (p : Property) :
    NamesFrame m (setProp m i j p) :=
  namesFrame_updEntity m i _ rfl

theorem namesFrame_setRel (m : ModelInfo) (i j : Nat) (r : StandaloneRelation) :
    NamesFrame m (setRel m i j r) :=
  namesFrame_updEntity m i _ rfl

theorem getModelProperty_names (bp : BindingProperty) (i : Nat) (m : ModelInfo)
    (j : Nat) (m1 : ModelInfo) (h : getModelProperty bp i m = .ok (j, m1)) :
    NamesFrame m m1 := by
  unfold getModelProperty at h
  split at h
  · split at h
    · simp only [Except.ok.injEq, Prod.mk.injEq] at h
      rw [← h.2]
      exact namesFrame_refl m
    · split at h
      · simp only [Except.ok.injEq, Prod.mk.injEq] at h
        rw [← h.2]
        exact namesFrame_refl m
      · cases h
  · split at h
    · split at h
      · cases h
      · simp only [Except.ok.injEq, Prod.mk.injEq] at h
        rw [← h.2]
        exact namesFrame_refl m
    · split at h
      · cases h
      · simp only [Except.ok.injEq] at h
        have h2 : m1 = (createProperty i m).2 := by rw [h]
        rw [h2]
        exact namesFrame_updEntity m i _ rfl

theorem getModelProperty_error_shape (bp : BindingProperty) (i : Nat) (m : ModelInfo)
    (e : Err) (h : getModelProperty bp i m = .error e) :
    ∀ t, e ≠ .entityNameNotFound t := by
  unfold getModelProperty at h
  split at h
  · split at h
    · cases h
    · split at h
      · cases h
      · simp only [Except.error.injEq] at h
        intro t hc
        rw [← h] at hc
        cases hc
  · split at h
    · split at h
      · simp only [Except.error.injEq] at h
        intro t hc
        rw [← h] at hc
        cases hc
      · cases h
    · split at h
      · simp only [Except.error.injEq] at h
        intro t hc
        rw [← h] at hc
        cases hc
      · cases h

theorem mergeModelProperty_never_fails (bp : BindingProperty) (i j : Nat) (m : ModelInfo)
    (e : Err) (h : mergeModelProperty bp i j m = .error e) : False := by
  have hspec := mergeModelProperty_spec bp i j m _ rfl
  cases hbi : bp.Index <;> cases hpi : (getPropD m i j).IndexId <;>
    simp only [hbi, hpi] at hspec <;> rw [hspec] at h <;> cases h

theorem mergeModelProperty_names (bp : BindingProperty) (i j : Nat) (m : ModelInfo)
    (bp2 : BindingProperty) (m2 : ModelInfo)
    (h : mergeModelProperty bp i j m = .ok (bp2, m2)) : NamesFrame m m2 := by
  have hspec := mergeModelProperty_spec bp i j m _ rfl
  cases hbi : bp.Index <;> cases hpi : (getPropD m i j).IndexId <;>
    simp only [hbi, hpi] at hspec <;> rw [hspec] at h <;>
    simp only [Except.ok.injEq, Prod.mk.injEq] at h <;> rw [← h.2] <;>
    exact namesFrame_trans (namesFrame_of_entities_eq rfl) (namesFrame_setProp _ i j _)

theorem mergeProperties_c8 (i : Nat) (bps : List BindingProperty) (m : ModelInfo) :
    (∀ t, mergeProperties i bps m ≠ .error (.entityNameNotFound t)) ∧
    (∀ res, mergeProperties i bps m = .ok res → NamesFrame m res.2) := by
  induction bps generalizing m with
  | nil =>
      refine ⟨?_, ?_⟩
      · intro t h
        cases h
      · intro res h
        unfold mergeProperties at h
        simp only [Except.ok.injEq] at h
        rw [← h]
        exact namesFrame_refl m
  | cons bp rest ih =>
      constructor
      · intro t h
        unfold mergeProperties at h
        simp only [bind, Except.bind] at h
        rcases hg : getModelProperty bp i m with e | ⟨j, m1⟩ <;> rw [hg] at h
        · simp only [Except.error.injEq] at h
          exact getModelProperty_error_shape bp i m e hg t (by rw [h])
        · dsimp only at h
          rcases hm : mergeModelProperty bp i j m1 with e | ⟨bp2, m2⟩ <;> rw [hm] at h
          · exact mergeModelProperty_never_fails bp i j m1 e hm
          · dsimp only at h
            rcases hr : mergeProperties i rest m2 with e | res3 <;> rw [hr] at h
            · simp only [Except.error.injEq] at h
              exact (ih m2).1 t (by rw [hr, h])
            · cases h
      · intro res h
        unfold mergeProperties at h
        simp only [bind, Except.bind] at h
        rcases hg : getModelProperty bp i m with e | ⟨j, m1⟩ <;> rw [hg] at h
        · cases h
        · dsimp only at h
          rcases hm : mergeModelProperty bp i j m1 with e | ⟨bp2, m2⟩ <;> rw [hm] at h
          · cases h
          · dsimp only at h
            rcases hr : mergeProperties i rest m2 with e | res3 <;> rw [hr] at h
            · cases h
            · simp only [Except.ok.injEq] at h
              rw [← h]
              exact namesFrame_trans (getModelProperty_names bp i m j m1 hg)
                (namesFrame_trans (mergeModelProperty_names bp i j m1 bp2 m2 hm)
                  ((ih m2).2 res3 hr))

end ObxGen

namespace ObxGen

theorem getModelRelation_names (br : BindingRelation) (i : Nat) (m : ModelInfo)
    (j : Nat) (m1 : ModelInfo) (h : getModelRelation br i m = .ok (j, m1)) :
    NamesFrame m m1 := by
  unfold getModelRelation at h
  split at h
  · split at h
    · simp only [Except.ok.injEq, Prod.mk.injEq] at h
      rw [← h.2]
      exact namesFrame_refl m
    · cases h
  · split at h
    · split at h
      · cases h
      · simp only [Except.ok.injEq, Prod.mk.injEq] at h
        rw [← h.2]
        exact namesFrame_refl m
    · split at h
      · cases h
      · simp only [Except.ok.injEq] at h
        have h2 : m1 = (createRelation i m).2 := by rw [h]
        rw [h2]
        exact namesFrame_trans (b := updEntity m i (fun e =>
            { e with Relations := e.Relations ++
                [{ Id := ⟨m.LastRelationId.id + 1, generateUid m⟩, Name := ""
                   TargetId := ⟨0, 0⟩ }] }))
          (namesFrame_updEntity m i _ rfl) (namesFrame_of_entities_eq rfl)

theorem getModelRelation_error_shape (br : BindingRelation) (i : Nat) (m : ModelInfo)
    (e : Err) (h : getModelRelation br i m = .error e) :
    ∀ t, e ≠ .entityNameNotFound t := by
  unfold getModelRelation at h
  split at h
  · split at h
    · cases h
    · simp only [Except.error.injEq] at h
      intro t hc
      rw [← h] at hc
      cases hc
  · split at h
    · split at h
      · simp only [Except.error.injEq] at h
        intro t hc
        rw [← h] at hc
        cases hc
      · cases h
    · split at h
      · simp only [Except.error.injEq] at h
        intro t hc
        rw [← h] at hc
        cases hc
      · cases h

theorem findEntityIdxByName_ne_none (m : ModelInfo) (n : String)
    (h : ∃ k, k < m.Entities.length ∧ (getEntityD m k).Name = n) :
    findEntityIdxByName m n ≠ none := by
  obtain ⟨k, hk, hname⟩ := h
  intro hnone
  rw [findEntityIdxByName, findIndexOpt_eq_none_iff] at hnone
  have := hnone (getEntityD m k) (getEntityD_mem m k hk)
  simp [hname] at this

theorem namesFrame_name_witness {m m' : ModelInfo} (hf : NamesFrame m m') (n : String)
    (h : ∃ k, k < m.Entities.length ∧ (getEntityD m k).Name = n) :
    ∃ k, k < m'.Entities.length ∧ (getEntityD m' k).Name = n := by
  obtain ⟨k, hk, hname⟩ := h
  exact ⟨k, by rw [hf.1]; exact hk, by rw [hf.2 k]; exact hname⟩

theorem mergeModelRelation_c8 (br : BindingRelation) (i j : Nat) (m : ModelInfo)
    (htar : ∃ k, k < m.Entities.length ∧ (getEntityD m k).Name = br.Target.Name) :
    (∀ e, mergeModelRelation br i j m = .error e → False) ∧
    (∀ br2 m2, mergeModelRelation br i j m = .ok (br2, m2) → NamesFrame m m2) := by
  have hf1 : NamesFrame m (setRel m i j { getRelD m i j with Name := br.Name }) :=
    namesFrame_setRel m i j _
  have htar1 := namesFrame_name_witness hf1 br.Target.Name htar
  constructor
  · intro e h
    unfold mergeModelRelation at h
    dsimp only at h
    split at h
    · next heq =>
        exact findEntityIdxByName_ne_none _ br.Target.Name htar1 heq
    · cases h
  · intro br2 m2 h
    unfold mergeModelRelation at h
    dsimp only at h
    split at h
    · cases h
    · simp only [Except.ok.injEq, Prod.mk.injEq] at h
      rw [← h.2]
      exact namesFrame_trans hf1 (namesFrame_setRel _ i j _)

theorem mergeRelations_c8 (i : Nat) (brs : List BindingRelation) (m : ModelInfo)
    (htars : ∀ br ∈ brs, ∃ k, k < m.Entities.length ∧ (getEntityD m k).Name = br.Target.Name) :
    (∀ t, mergeRelations i brs m ≠ .error (.entityNameNotFound t)) ∧
    (∀ res, mergeRelations i brs m = .ok res → NamesFrame m res.2) := by
  induction brs generalizing m with
  | nil =>
      refine ⟨?_, ?_⟩
      · intro t h
        cases h
      · intro res h
        unfold mergeRelations at h
        simp only [Except.ok.injEq] at h
        rw [← h]
        exact namesFrame_refl m
  | cons br rest ih =>
      have htar0 : ∃ k, k < m.Entities.length ∧ (getEntityD m k).Name = br.Target.Name :=
        htars br (List.mem_cons_self br rest)
      constructor
      · intro t h
        unfold mergeRelations at h
        simp only [bind, Except.bind] at h
        rcases hg : getModelRelation br i m with e | ⟨j, m1⟩ <;> rw [hg] at h
        · simp only [Except.error.injEq] at h
          exact getModelRelation_error_shape br i m e hg t (by rw [h])
        · dsimp only at h
          have hf1 := getModelRelation_names br i m j m1 hg
          rcases hm : mergeModelRelation br i j m1 with e | ⟨br2, m2⟩ <;> rw [hm] at h
          · exact (mergeModelRelation_c8 br i j m1
              (namesFrame_name_witness hf1 br.Target.Name htar0)).1 e hm
          · dsimp only at h
            have hf2 := (mergeModelRelation_c8 br i j m1
              (namesFrame_name_witness hf1 br.Target.Name htar0)).2 br2 m2 hm
            have hf12 := namesFrame_trans hf1 hf2
            rcases hr : mergeRelations i rest m2 with e | res3 <;> rw [hr] at h
            · simp only [Except.error.injEq] at h
              refine (ih m2 ?_).1 t (by rw [hr, h])
              intro br3 hbr3
              exact namesFrame_name_witness hf12 br3.Target.Name
                (htars br3 (List.mem_cons_of_mem br hbr3))
            · cases h
      · intro res h
        unfold mergeRelations at h
        simp only [bind, Except.bind] at h
        rcases hg : getModelRelation br i m with e | ⟨j, m1⟩ <;> rw [hg] at h
        · cases h
        · dsimp only at h
          have hf1 := getModelRelation_names br i m j m1 hg
          rcases hm : mergeModelRelation br i j m1 with e | ⟨br2, m2⟩ <;> rw [hm] at h
          · cases h
          · dsimp only at h
            have hf2 := (mergeModelRelation_c8 br i j m1
              (namesFrame_name_witness hf1 br.Target.Name htar0)).2 br2 m2 hm
            have hf12 := namesFrame_trans hf1 hf2
            rcases hr : mergeRelations i rest m2 with e | res3 <;> rw [hr] at h
            · cases h
            · simp only [Except.ok.injEq] at h
              rw [← h]
              refine namesFrame_trans hf12 ((ih m2 ?_).2 res3 hr)
              intro br3 hbr3
              exact namesFrame_name_witness hf12 br3.Target.Name
                (htars br3 (List.mem_cons_of_mem br hbr3))

end ObxGen

namespace ObxGen

theorem removeMissingProperties_names (be : BindingEntity) (i : Nat) (m : ModelInfo) :
    NamesFrame m (removeMissingProperties be i m) := by
  unfold removeMissingProperties
  dsimp only
  refine namesFrame_trans (b := updEntity m i (fun e =>
      { e with Properties := e.Properties.filter (fun p => bindingPropertyExists p be) }))
    (namesFrame_updEntity m i _ rfl) (namesFrame_of_entities_eq rfl)

theorem removeMissingRelations_names (be : BindingEntity) (i : Nat) (m : ModelInfo) :
    NamesFrame m (removeMissingRelations be i m) := by
  unfold removeMissingRelations
  dsimp only
  refine namesFrame_trans (b := updEntity m i (fun e =>
      { e with Relations := e.Relations.filter (fun r => bindingRelationExists r be) }))
    (namesFrame_updEntity m i _ rfl) (namesFrame_of_entities_eq rfl)

theorem mergeModelEntity_c8 (be : BindingEntity) (i : Nat) (m : ModelInfo)
    (hname : (getEntityD m i).Name = be.Name)
    (htars : ∀ br ∈ be.Relations,
      ∃ k, k < m.Entities.length ∧ (getEntityD m k).Name = br.Target.Name) :
    (∀ t, mergeModelEntity be i m ≠ .error (.entityNameNotFound t)) ∧
    (∀ be2 m2, mergeModelEntity be i m = .ok (be2, m2) → NamesFrame m m2) := by
  have hf0 : NamesFrame m (updEntity m i (fun e => { e with Name := be.Name })) :=
    namesFrame_updEntity m i _ hname.symm
  constructor
  · intro t h
    unfold mergeModelEntity at h
    simp only [bind, Except.bind] at h
    rcases hg : mergeProperties i be.Properties
        (updEntity m i (fun e => { e with Name := be.Name })) with e | ⟨bps, mA⟩ <;>
      rw [hg] at h
    · simp only [Except.error.injEq] at h
      exact (mergeProperties_c8 i be.Properties _).1 t (by rw [hg, h])
    · dsimp only at h
      have hfA : NamesFrame m mA :=
        namesFrame_trans hf0 ((mergeProperties_c8 i be.Properties _).2 (bps, mA) hg)
      have hfB : NamesFrame m (removeMissingProperties be i mA) :=
        namesFrame_trans hfA (removeMissingProperties_names be i mA)
      rcases hr : mergeRelations i be.Relations (removeMissingProperties be i mA) with
        e | ⟨brs, mB⟩ <;> rw [hr] at h
      · simp only [Except.error.injEq] at h
        refine (mergeRelations_c8 i be.Relations _ ?_).1 t (by rw [hr, h])
        intro br hbr
        exact namesFrame_name_witness hfB br.Target.Name (htars br hbr)
      · dsimp only at h
        cases h
  · intro be2 m2 h
    unfold mergeModelEntity at h
    simp only [bind, Except.bind] at h
    rcases hg : mergeProperties i be.Properties
        (updEntity m i (fun e => { e with Name := be.Name })) with e | ⟨bps, mA⟩ <;>
      rw [hg] at h
    · cases h
    · dsimp only at h
      have hfA : NamesFrame m mA :=
        namesFrame_trans hf0 ((mergeProperties_c8 i be.Properties _).2 (bps, mA) hg)
      have hfB : NamesFrame m (removeMissingProperties be i mA) :=
        namesFrame_trans hfA (removeMissingProperties_names be i mA)
      rcases hr : mergeRelations i be.Relations (removeMissingProperties be i mA) with
        e | ⟨brs, mB⟩ <;> rw [hr] at h
      · cases h
      · dsimp only at h
        simp only [Except.ok.injEq, Prod.mk.injEq] at h
        rw [← h.2]
        refine namesFrame_trans hfB ?_
        refine namesFrame_trans ((mergeRelations_c8 i be.Relations _ ?_).2 (brs, mB) hr)
          (removeMissingRelations_names be i mB)
        intro br hbr
        exact namesFrame_name_witness hfB br.Target.Name (htars br hbr)

theorem mergeEntities_c8 (pairs : List (BindingEntity × Nat)) (m : ModelInfo)
    (hinv : ∀ pr ∈ pairs, (getEntityD m pr.2).Name = pr.1.Name)
    (htars : ∀ pr ∈ pairs, ∀ br ∈ pr.1.Relations,
      ∃ k, k < m.Entities.length ∧ (getEntityD m k).Name = br.Target.Name) :
    ∀ t, mergeEntities pairs m ≠ .error (.entityNameNotFound t) := by
  induction pairs generalizing m with
  | nil =>
      intro t h
      cases h
  | cons pr rest ih =>
      obtain ⟨be, idx⟩ := pr
      intro t h
      unfold mergeEntities at h
      simp only [bind, Except.bind] at h
      have hc8 := mergeModelEntity_c8 be idx m
        (hinv (be, idx) (List.mem_cons_self _ _))
        (htars (be, idx) (List.mem_cons_self _ _))
      rcases hm : mergeModelEntity be idx m with e | ⟨be2, m1⟩ <;> rw [hm] at h
      · simp only [Except.error.injEq] at h
        exact hc8.1 t (by rw [hm, h])
      · dsimp only at h
        have hf := hc8.2 be2 m1 hm
        rcases hr : mergeEntities rest m1 with e | res2 <;> rw [hr] at h
        · simp only [Except.error.injEq] at h
          refine ih m1 ?_ ?_ t (by rw [hr, h])
          · intro pr2 hpr2
            rw [hf.2 pr2.2]
            exact hinv pr2 (List.mem_cons_of_mem _ hpr2)
          · intro pr2 hpr2 br hbr
            exact namesFrame_name_witness hf br.Target.Name
              (htars pr2 (List.mem_cons_of_mem _ hpr2) br hbr)
        · cases h

end ObxGen

namespace ObxGen

theorem getD_append_self (l : List α) (x d : α) : (l ++ [x]).getD l.length d = x := by
  induction l with
  | nil => rfl
  | cons a as ih => exact ih

theorem getD_eq_getElem (l : List α) (n : Nat) (d : α) (h : n < l.length) :
    l.getD n d = l[n] := by
  rw [List.getD_eq_getElem?_getD, List.getElem?_eq_getElem h]
  rfl

theorem listExtends_le {l l' : List α} (h : ListExtends l l') : l.length ≤ l'.length := by
  obtain ⟨t, rfl⟩ := h
  simp

theorem resolveEntities_ok_names (bes : List BindingEntity) (m : ModelInfo)
    (H1 : ∀ be ∈ bes, be.Uid = 0 ∧ be.uidRequest = false) :
    ∃ idxs m1, resolveEntities bes m = .ok (idxs, m1) ∧
      idxs.length = bes.length ∧
      ∀ n, n < bes.length →
        (idxs.getD n 0) < m1.Entities.length ∧
        (getEntityD m1 (idxs.getD n 0)).Name = (bes.getD n default).Name := by
  induction bes generalizing m with
  | nil =>
      exact ⟨[], m, rfl, rfl, fun n hn => absurd hn (Nat.not_lt_zero n)⟩
  | cons be rest ih =>
      obtain ⟨h0, hreq⟩ := H1 be (List.mem_cons_self _ _)
      have hge : ∃ i1 m1, getModelEntity be m = .ok (i1, m1) ∧
          i1 < m1.Entities.length ∧ (getEntityD m1 i1).Name = be.Name ∧
          ListExtends m.Entities m1.Entities := by
        unfold getModelEntity
        rcases hf : findEntityIdxByName m be.Name with _ | i1
        · refine ⟨m.Entities.length, (createEntity be.Name m).2,
            by simp [h0, hreq, hf]; rfl, ?_, ?_, ⟨_, rfl⟩⟩
          · unfold createEntity
            simp
          · unfold createEntity getEntityD
            dsimp only
            rw [getD_append_self]
        · refine ⟨i1, m, by simp [h0, hreq, hf], findIndexOpt_some_lt _ _ _ hf, ?_, listExtends_refl _⟩
          have := findIndexOpt_some_getD _ _ _ default hf
          simpa [getEntityD] using this
      obtain ⟨i1, m1, hok, hi1, hname1, hext1⟩ := hge
      obtain ⟨idxs2, m2, hok2, hlen2, hfacts2⟩ :=
        ih m1 (fun be2 hbe2 => H1 be2 (List.mem_cons_of_mem _ hbe2))
      have hext2 := resolveEntities_extends rest m1 (idxs2, m2) hok2
      refine ⟨i1 :: idxs2, m2, ?_, by simp [hlen2], ?_⟩
      · unfold resolveEntities
        simp only [bind, Except.bind]
        rw [hok]
        dsimp only
        rw [hok2]
      · intro n hn
        cases n with
        | zero =>
            refine ⟨lt_of_lt_of_le hi1 (listExtends_le hext2), ?_⟩
            show (getEntityD m2 i1).Name = be.Name
            rw [getEntityD_of_extends hext2 i1 hi1]
            exact hname1
        | succ n2 =>
            exact hfacts2 n2 (by simpa using hn)

end ObxGen

namespace ObxGen

theorem mem_iff_getD [Inhabited α] {l : List α} {a : α} (h : a ∈ l) :
    ∃ n, n < l.length ∧ l.getD n default = a := by
  induction l with
  | nil => cases h
  | cons b bs ih =>
      rcases List.mem_cons.mp h with h1 | h1
      · exact ⟨0, by simp, h1.symm⟩
      · obtain ⟨n, hn, hget⟩ := ih h1
        exact ⟨n + 1, by simpa using hn, hget⟩

theorem zip_mem_facts {bes : List BindingEntity} {idxs : List Nat}
    (hlen : idxs.length = bes.length)
    (pr : BindingEntity × Nat) (hpr : pr ∈ bes.zip idxs) :
    ∃ n, n < bes.length ∧ pr.1 = bes.getD n default ∧ pr.2 = idxs.getD n 0 := by
  obtain ⟨⟨n, hn⟩, hget⟩ := List.get_of_mem hpr
  have hzl : n < bes.length := by
    rw [List.length_zip, hlen, min_self] at hn
    exact hn
  have hil : n < idxs.length := by
    rw [hlen]
    exact hzl
  refine ⟨n, hzl, ?_, ?_⟩
  · rw [getD_eq_getElem _ _ _ hzl, ← hget]
    rw [List.get_eq_getElem, List.getElem_zip]
  · rw [getD_eq_getElem _ _ _ hil, ← hget]
    rw [List.get_eq_getElem, List.getElem_zip]

/-! ### C8 — relation target resolution -/

/-- C8 (amended): a standalone relation's target is resolved by name
against the document's entities and a missing name is a fatal error;
because entities are resolved in one pass before the merge, a relation
whose target entity appears in the binding never fails this lookup
provided no binding entity carries an explicit uid or a uid request — with
an explicit-uid rename the lookup can still fail. -/
theorem c8_relation_target_resolution :
    (∀ (br : BindingRelation) (i j : Nat) (m : ModelInfo),
      (∀ e ∈ m.Entities, e.Name ≠ br.Target.Name) →
      mergeModelRelation br i j m = .error (.entityNameNotFound br.Target.Name)) ∧
    (∀ (b : Binding) (m : ModelInfo),
      (∀ be ∈ b.Entities, be.Uid = 0 ∧ be.uidRequest = false) →
      (∀ be ∈ b.Entities, ∀ br ∈ be.Relations,
        ∃ be2 ∈ b.Entities, be2.Name = br.Target.Name) →
      ∀ t, mergeBindingWithModelInfo b m ≠ .error (.entityNameNotFound t)) := by
  constructor
  · intro br i j m hnone
    have hfind : findEntityIdxByName
        (setRel m i j { getRelD m i j with Name := br.Name }) br.Target.Name = none := by
      rw [findEntityIdxByName, findIndexOpt_eq_none_iff]
      intro e2 he2
      rw [decide_eq_false_iff_not]
      by_cases hi : i < m.Entities.length
      · rcases List.mem_or_eq_of_mem_set he2 with h1 | h1
        · exact hnone e2 h1
        · rw [h1]
          exact hnone (getEntityD m i) (getEntityD_mem m i hi)
      · have hm : setRel m i j { getRelD m i j with Name := br.Name } = m := by
          unfold setRel updEntity setEntity
          rw [List.set_eq_of_length_le (Nat.le_of_not_lt hi)]
        rw [hm] at he2
        exact hnone e2 he2
    unfold mergeModelRelation
    dsimp only
    rw [hfind]
  · intro b m H1 H2 t h
    unfold mergeBindingWithModelInfo at h
    simp only [bind, Except.bind] at h
    obtain ⟨idxs, m1, hok, hlen, hfacts⟩ := resolveEntities_ok_names b.Entities m H1
    rw [hok] at h
    dsimp only at h
    have hinv : ∀ pr ∈ b.Entities.zip idxs, (getEntityD m1 pr.2).Name = pr.1.Name := by
      intro pr hpr
      obtain ⟨n, hn, h1, h2⟩ := zip_mem_facts hlen pr hpr
      rw [h1, h2]
      exact (hfacts n hn).2
    have htars : ∀ pr ∈ b.Entities.zip idxs, ∀ br ∈ pr.1.Relations,
        ∃ k, k < m1.Entities.length ∧ (getEntityD m1 k).Name = br.Target.Name := by
      intro pr hpr br hbr
      obtain ⟨n, hn, h1, _⟩ := zip_mem_facts hlen pr hpr
      have hmem : pr.1 ∈ b.Entities := by
        rw [h1, getD_eq_getElem _ _ _ hn]
        exact List.getElem_mem hn
      obtain ⟨be2, hbe2, hbe2name⟩ := H2 pr.1 hmem br hbr
      obtain ⟨n2, hn2, hget2⟩ := mem_iff_getD hbe2
      refine ⟨idxs.getD n2 0, (hfacts n2 hn2).1, ?_⟩
      rw [(hfacts n2 hn2).2, hget2]
      exact hbe2name
    rcases hm2 : mergeEntities (b.Entities.zip idxs) m1 with e | res2 <;> rw [hm2] at h
    · simp only [Except.error.injEq] at h
      exact mergeEntities_c8 (b.Entities.zip idxs) m1 hinv htars t (by rw [hm2, h])
    · dsimp only at h
      cases h

/-- C8 witness: a relation with an absent target name fails fatally, and a
binding without explicit entity uids whose relation targets a binding
entity never yields an unknown-target error. -/
theorem c8_relation_target_resolution_witness :
    mergeModelRelation witBrMissing 0 0 cexModel =
      .error (.entityNameNotFound witBrMissing.Target.Name) ∧
    mergeBindingWithModelInfo witBindingRel cexModel ≠
      .error (.entityNameNotFound "B2") := by
  constructor
  · exact c8_relation_target_resolution.1 witBrMissing 0 0 cexModel (by decide)
  · exact c8_relation_target_resolution.2 witBindingRel cexModel (by decide) (by decide) "B2"

/-- C8 counterexample: in `cexBindingFwd` the relation of entity `A`
targets `Y`, the name of a binding entity (the second descriptor, which
renames the model entity `X` to `Y`), yet the whole merge fails with an
unknown-target error — the relation merges before the rename lands. -/
theorem c8_counterexample :
    (cexBindingFwd.Entities.getD 1 default).Name = "Y" ∧
    ((cexBindingFwd.Entities.getD 0 default).Relations.getD 0 default).Target.Name = "Y" ∧
    mergeBindingWithModelInfo cexBindingFwd cexModel =
      .error (.entityNameNotFound "Y") :=
  ⟨rfl, rfl, rfl⟩

end ObxGen
